import Mathlib

/-!
Verification of the query-pipeline core of the `rapier` repository
(`src/pipeline/query_pipeline.rs`).

The pipeline itself (update protocol, composite-shape adapter, every public
query operation) is translated directly from the source.  The pieces the
pipeline consumes from outside the analysed file — the QBVH spatial index,
the per-shape geometric kernels, the interaction-group test and the pairwise
query dispatcher — are modelled from the specification's contracts for them;
each such definition carries a doc comment starting with
`Modelled from the spec:`.

Scalars are integers, poses are one-dimensional translations; per-shape
geometry (AABB computation, ray casting, point projection, containment) is
kept fully abstract as function fields of `Shape`, since the pipeline under
analysis never inspects geometry itself, it only routes it.
-/

set_option autoImplicit false

namespace Rapier

/-- Modelled from the spec: rigid-motion poses (`Isometry<Real>`, external
math types).  Modelled as one-dimensional translations over `ℤ`; composition
is `*` as in the source. -/
structure Isometry where
  t : ℤ
  deriving DecidableEq

instance : Mul Isometry := ⟨fun a b => ⟨a.t + b.t⟩⟩

/-- Modelled from the spec: pose inversion, used by `intersections_with_shape`
and `intersection_with_shape` to form the relative pose `pos12`. -/
def Isometry.inverse (a : Isometry) : Isometry := ⟨-a.t⟩

/-- Axis-aligned bounding box (external `parry::bounding_volume::AABB`),
one-dimensional. -/
structure AABB where
  mins : ℤ
  maxs : ℤ
  deriving DecidableEq

/-- Modelled from the spec: AABB overlap test used by the region/depth-first
visitors (`BoundingVolumeIntersectionsVisitor`). -/
def AABB.intersects (a b : AABB) : Bool :=
  decide (a.mins ≤ b.maxs) && decide (b.mins ≤ a.maxs)

/-- Modelled from the spec: leaf-bound dilation — a scalar margin added when
computing or refreshing leaf bounds (spec §3 "Dilation Factor"). -/
def AABB.dilate (a : AABB) (factor : ℤ) : AABB :=
  ⟨a.mins - factor, a.maxs + factor⟩

/-- A ray (external `parry::query::Ray`), one-dimensional. -/
structure Ray where
  origin : ℤ
  dir : ℤ
  deriving DecidableEq

/-- Modelled from the spec: the ray-vs-AABB bound test of the depth-first
`RayIntersectionsVisitor` — visit every leaf whose bound overlaps the ray
segment of length `dir * max_toi`. -/
def rayAabbOverlap (ray : Ray) (max_toi : ℤ) (a : AABB) : Bool :=
  decide (min ray.origin (ray.origin + ray.dir * max_toi) ≤ a.maxs) &&
    decide (a.mins ≤ max ray.origin (ray.origin + ray.dir * max_toi))

/-- Modelled from the spec: the point-vs-AABB bound test of the depth-first
`PointIntersectionsVisitor`. -/
def pointAabbOverlap (p : ℤ) (a : AABB) : Bool :=
  decide (a.mins ≤ p) && decide (p ≤ a.maxs)

/-- Result of a point projection (external `parry::query::PointProjection`). -/
structure PointProjection where
  is_inside : Bool
  point : ℤ
  deriving DecidableEq

/-- Result of a ray cast with details (external `parry::query::RayIntersection`). -/
structure RayIntersection where
  toi : ℤ
  normal : ℤ
  feature : Nat
  deriving DecidableEq

/-- Time-of-impact result (external `parry::query::TOI`); only the `toi`
field is relevant to the pipeline's plumbing. -/
structure TOI where
  toi : ℤ
  deriving DecidableEq

/-- Shape feature identifier (external `parry::shape::FeatureId`). -/
abbrev FeatureId := Nat

/-- Interaction groups attached to a collider (rapier's
`InteractionGroups`, declared outside the analysed file). -/
structure InteractionGroups where
  memberships : Nat
  filter : Nat
  deriving DecidableEq

/-- Modelled from the spec: the bitmask membership/acceptance group test
(`InteractionGroups::test`, outside `src/`): both directions of the
membership-vs-filter intersection must be non-empty. -/
def InteractionGroups.test (a b : InteractionGroups) : Bool :=
  (a.memberships &&& b.filter != 0) && (b.memberships &&& a.filter != 0)

/-- Nonlinear rigid motion description (external
`parry::query::NonlinearRigidMotion`). -/
structure NonlinearRigidMotion where
  start : Isometry
  linvel : ℤ
  angvel : ℤ
  deriving DecidableEq

/-- Modelled from the spec: `NonlinearRigidMotion::identity()` — the motion
that keeps a shape fixed at its current pose. -/
def NonlinearRigidMotion.identity : NonlinearRigidMotion := ⟨⟨0⟩, 0, 0⟩

/-- Modelled from the spec: a type-erased shape (`dyn Shape`) as a bundle of
the geometric capability methods the pipeline invokes.  The pipeline never
looks inside a shape, so the kernels are arbitrary functions; `boundary` is
the abstract boundary-membership predicate used to state the hollow
projection contract. -/
structure Shape where
  compute_aabb : Isometry → AABB
  compute_swept_aabb : Isometry → Isometry → AABB
  cast_ray : Isometry → Ray → ℤ → Bool → Option ℤ
  cast_ray_and_get_normal : Isometry → Ray → ℤ → Bool → Option RayIntersection
  contains_point : Isometry → ℤ → Bool
  project_point : Isometry → ℤ → Bool → PointProjection
  project_point_with_feature : Isometry → ℤ → Bool → PointProjection × FeatureId
  boundary : Isometry → ℤ → Bool

/-- Modelled from the spec: the hollow projection contract for a shape —
projecting with `solid = false` lands on the shape's boundary (spec §4.3:
"hollow projects interior points onto the boundary instead of returning the
point itself"). -/
def Shape.HollowProj (s : Shape) : Prop :=
  ∀ pos pt, s.boundary pos ((s.project_point_with_feature pos pt false).1.point) = true

/-- Modelled from the spec: the pairwise geometric dispatcher (external
capability): intersection tests return an error value for unsupported
shape-kind pairs; time-of-impact entry points yield `none` when there is no
impact (or the pair is unsupported). -/
structure QueryDispatcher where
  intersection_test : Isometry → Shape → Shape → Except Unit Bool
  time_of_impact : Isometry → ℤ → Isometry → Shape → Shape → ℤ → Option TOI
  nonlinear_time_of_impact :
    NonlinearRigidMotion → Isometry → Shape → NonlinearRigidMotion → Shape →
      ℤ → ℤ → Bool → Option TOI

/-- A collider's optional link to a parent rigid body
(rapier's `ColliderParent`, declared outside the analysed file). -/
structure ColliderParent where
  handle : Nat
  pos_wrt_parent : Isometry

/-- The components of one collider the pipeline reads: flags (collision
groups), position, shape, optional parent.  The source accesses these through
generic `ComponentSet` accessors; here one record per handle. -/
structure Collider where
  collision_groups : InteractionGroups
  pos : Isometry
  shape : Shape
  parent : Option ColliderParent

/-- The collider component store: an association list from handles to
collider records, supporting `get` (optional lookup) and ordered bulk
iteration, as in the spec's Component Accessors contract. -/
abbrev ColliderSet := List (Nat × Collider)

/-- Optional per-handle lookup (`ComponentSetOption::get`): the first entry
with the given handle, if any. -/
def ColliderSet.get (cs : ColliderSet) (h : Nat) : Option Collider :=
  (cs.find? fun p => p.1 == h).map Prod.snd

/-- A rigid body's current and next position (rapier's `RigidBodyPosition`). -/
structure RigidBodyPosition where
  position : Isometry
  next_position : Isometry

/-- The rigid-body components the pipeline reads.  `predict_position dt` is
Modelled from the spec: it stands for
`RigidBodyPosition::integrate_forces_and_velocities(dt, forces, vels, mprops)`
(outside `src/`), bundling the velocity/forces/mass-property components into
the one function of `dt` the pipeline consumes. -/
structure RigidBody where
  pos : RigidBodyPosition
  colliders : List Nat
  predict_position : ℤ → Isometry

/-- The rigid-body component store; the source only uses the panicking
`index`/`index_bundle` accessors on bodies (absence is a caller bug), so the
store is a total function. -/
abbrev RigidBodySet := Nat → RigidBody

/-- The active-body enumeration (`IslandManager::iter_active_bodies`). -/
abbrev IslandManager := List Nat

/-- Modelled from the spec: the hierarchical spatial index
(`parry::partitioning::QBVH`), reduced to its observable contract (spec
§4.1): a set of (handle, stored dilated box) leaves plus the set of leaves
marked for refresh. -/
structure QBVH where
  leaves : List (Nat × AABB)
  marked : List Nat

/-- Modelled from the spec: `QBVH::new()` — the empty index. -/
def QBVH.new : QBVH := ⟨[], []⟩

/-- Modelled from the spec: `QBVH::clear_and_rebuild` — discard any prior
structure and rebuild from a generator's (handle, box) pairs, dilating every
leaf box. -/
def QBVH.clear_and_rebuild (_t : QBVH) (gen : List (Nat × AABB))
    (dilation_factor : ℤ) : QBVH :=
  ⟨gen.map fun p => (p.1, p.2.dilate dilation_factor), []⟩

/-- Modelled from the spec: `QBVH::pre_update` — mark one leaf as needing its
bound recomputed on the next refresh pass. -/
def QBVH.pre_update (t : QBVH) (h : Nat) : QBVH :=
  ⟨t.leaves, h :: t.marked⟩

/-- Modelled from the spec: `QBVH::update` — recompute the bound of every
marked leaf with the caller-supplied box function and the dilation factor,
keeping the topology; marks are consumed. -/
def QBVH.update (t : QBVH) (f : Nat → AABB) (dilation_factor : ℤ) : QBVH :=
  ⟨t.leaves.map fun p =>
      if t.marked.contains p.1 then (p.1, (f p.1).dilate dilation_factor) else p,
    []⟩

/-- Modelled from the spec: depth-first traversal — visit every leaf whose
stored bound passes the visitor's bound test, in index order, threading the
visitor state; a `false` continuation ends the traversal at once. -/
def dfRun {σ : Type} (bvTest : AABB → Bool) (f : σ → Nat → σ × Bool) :
    List (Nat × AABB) → σ → σ
  | [], s => s
  | p :: rest, s =>
    if bvTest p.2 then
      let r := f s p.1
      if r.2 then dfRun bvTest f rest r.1 else r.1
    else dfRun bvTest f rest s

/-- Modelled from the spec: depth-first traversal entry point
(`QBVH::traverse_depth_first`). -/
def QBVH.traverse_depth_first {σ : Type} (t : QBVH) (bvTest : AABB → Bool)
    (f : σ → Nat → σ × Bool) (s : σ) : σ :=
  dfRun bvTest f t.leaves s

/-- Modelled from the spec: merging one candidate into the running best of a
best-first search (strictly smaller cost replaces the incumbent). -/
def bfMerge {α : Type} (best cand : Option (ℤ × α)) : Option (ℤ × α) :=
  match cand with
  | none => best
  | some (c, a) =>
    match best with
    | none => some (c, a)
    | some (c₀, a₀) => if c < c₀ then some (c, a) else some (c₀, a₀)

/-- Modelled from the spec: the accumulating loop of the best-first search. -/
def bfGo {α : Type} (f : Nat → Option (ℤ × α)) :
    List (Nat × AABB) → Option (ℤ × α) → Option (ℤ × α)
  | [], best => best
  | p :: rest, best => bfGo f rest (bfMerge best (f p.1))

/-- Modelled from the spec: best-first traversal
(`QBVH::traverse_best_first`): the result, if any, is the global optimum of
the visitor's leaf cost over all indexed handles passing the visitor's own
filtering (spec §4.1), here realised extensionally as a minimising scan. -/
def QBVH.traverse_best_first {α : Type} (t : QBVH) (f : Nat → Option (ℤ × α)) :
    Option (ℤ × α) :=
  bfGo f t.leaves none

/-- The query pipeline state (source `struct QueryPipeline`): dispatcher,
spatial index, built flag, dilation factor. -/
structure QueryPipeline where
  query_dispatcher : QueryDispatcher
  qbvh : QBVH
  tree_built : Bool
  dilation_factor : ℤ

/-- Source `QueryPipeline::with_query_dispatcher`: empty index, `tree_built`
false, and the fixed positive dilation margin (the source's `0.01`, the unit
margin in this integer scalar model). -/
def QueryPipeline.with_query_dispatcher (d : QueryDispatcher) : QueryPipeline :=
  ⟨d, QBVH.new, false, 1⟩

/-- Source `struct QueryPipelineAsCompositeShape`: the ephemeral adapter
presenting the filtered colliders as one composite shape. -/
structure QueryPipelineAsCompositeShape where
  query_pipeline : QueryPipeline
  colliders : ColliderSet
  query_groups : InteractionGroups
  filter : Option (Nat → Bool)

/-- Source `QueryPipeline::as_composite_shape`. -/
def QueryPipeline.as_composite_shape (qp : QueryPipeline) (colliders : ColliderSet)
    (query_groups : InteractionGroups) (filter : Option (Nat → Bool)) :
    QueryPipelineAsCompositeShape :=
  ⟨qp, colliders, query_groups, filter⟩

/-- Source `QueryPipelineAsCompositeShape::map_typed_part_at`: look the
collider up (optional — absent means skip), test its collision groups against
the query groups and the optional predicate, and only then expose its
position and shape as a composite-shape part. -/
def QueryPipelineAsCompositeShape.map_typed_part_at
    (s : QueryPipelineAsCompositeShape) (shape_id : Nat) : Option (Isometry × Shape) :=
  match s.colliders.get shape_id with
  | none => none
  | some co =>
    if co.collision_groups.test s.query_groups &&
        (s.filter.map fun f => f shape_id).getD true then
      some (co.pos, co.shape)
    else none

/-- The update mode (source `enum QueryPipelineMode`). -/
inductive QueryPipelineMode where
  | CurrentPosition
  | SweepTestWithNextPosition
  | SweepTestWithPredictedPosition (dt : ℤ)

/-- Source `DataGenerator::for_each` inside `update_with_mode`: the
(handle, box) pairs a full rebuild feeds the index, one per store entry.
`CurrentPosition` takes a plain AABB at the collider's position; the two
sweep modes take a swept AABB toward the parent pose composed with the
collider's pose with respect to the parent — but only for parented
colliders, unparented ones always get the plain current-position AABB. -/
def DataGenerator.for_each (bodies : RigidBodySet) (colliders : ColliderSet)
    (mode : QueryPipelineMode) : List (Nat × AABB) :=
  match mode with
  | .CurrentPosition =>
    colliders.map fun p => (p.1, p.2.shape.compute_aabb p.2.pos)
  | .SweepTestWithNextPosition =>
    colliders.map fun p =>
      match p.2.parent with
      | some par =>
        (p.1, p.2.shape.compute_swept_aabb p.2.pos
          ((bodies par.handle).pos.next_position * par.pos_wrt_parent))
      | none => (p.1, p.2.shape.compute_aabb p.2.pos)
  | .SweepTestWithPredictedPosition dt =>
    colliders.map fun p =>
      match p.2.parent with
      | some par =>
        (p.1, p.2.shape.compute_swept_aabb p.2.pos
          ((bodies par.handle).predict_position dt * par.pos_wrt_parent))
      | none => (p.1, p.2.shape.compute_aabb p.2.pos)

/-- Source: the per-handle box closures of the three `qbvh.update` calls in
`update_with_mode` (refresh path).  The absent-handle branch stands for the
panicking `index_bundle`, which the source only reaches for handles known to
be present. -/
def refreshAabb (bodies : RigidBodySet) (colliders : ColliderSet)
    (mode : QueryPipelineMode) (h : Nat) : AABB :=
  match colliders.get h with
  | none => ⟨0, 0⟩
  | some co =>
    match mode with
    | .CurrentPosition => co.shape.compute_aabb co.pos
    | .SweepTestWithNextPosition =>
      match co.parent with
      | some par =>
        co.shape.compute_swept_aabb co.pos
          ((bodies par.handle).pos.next_position * par.pos_wrt_parent)
      | none => co.shape.compute_aabb co.pos
    | .SweepTestWithPredictedPosition dt =>
      match co.parent with
      | some par =>
        co.shape.compute_swept_aabb co.pos
          ((bodies par.handle).predict_position dt * par.pos_wrt_parent)
      | none => co.shape.compute_aabb co.pos

/-- Source `QueryPipeline::update_with_mode`: if the tree was never built,
clear-and-rebuild from the generator and return — the source's
`self.tree_built = true` is commented out (`FIXME`), so the flag is not set.
Otherwise mark every active body's colliders and refresh the index under the
mode's per-handle box rule. -/
def QueryPipeline.update_with_mode (qp : QueryPipeline) (islands : IslandManager)
    (bodies : RigidBodySet) (colliders : ColliderSet) (mode : QueryPipelineMode) :
    QueryPipeline :=
  if !qp.tree_built then
    { qp with
      qbvh := qp.qbvh.clear_and_rebuild (DataGenerator.for_each bodies colliders mode)
        qp.dilation_factor }
  else
    let marked := islands.foldl
      (fun t bh => ((bodies bh).colliders).foldl QBVH.pre_update t) qp.qbvh
    { qp with
      qbvh := marked.update (refreshAabb bodies colliders mode) qp.dilation_factor }

/-- Source `QueryPipeline::update_generic`: update under `CurrentPosition`. -/
def QueryPipeline.update_generic (qp : QueryPipeline) (islands : IslandManager)
    (bodies : RigidBodySet) (colliders : ColliderSet) : QueryPipeline :=
  qp.update_with_mode islands bodies colliders .CurrentPosition

/-- Source `QueryPipeline::cast_ray`: best-first search for the closest ray
hit among the composite shape's parts (visitor
`RayCompositeShapeToiBestFirstVisitor`: per part, cast the ray on the part at
its position; the cost is the time of impact). -/
def QueryPipeline.cast_ray (qp : QueryPipeline) (colliders : ColliderSet)
    (ray : Ray) (max_toi : ℤ) (solid : Bool) (query_groups : InteractionGroups)
    (filter : Option (Nat → Bool)) : Option (Nat × ℤ) :=
  let ps := qp.as_composite_shape colliders query_groups filter
  (qp.qbvh.traverse_best_first fun h =>
    match ps.map_typed_part_at h with
    | none => none
    | some (pos, sh) =>
      (sh.cast_ray pos ray max_toi solid).map fun t => (t, (h, t))).map Prod.snd

/-- Source `QueryPipeline::cast_ray_and_get_normal`: as `cast_ray` but keeps
the full `RayIntersection` (visitor
`RayCompositeShapeToiAndNormalBestFirstVisitor`). -/
def QueryPipeline.cast_ray_and_get_normal (qp : QueryPipeline)
    (colliders : ColliderSet) (ray : Ray) (max_toi : ℤ) (solid : Bool)
    (query_groups : InteractionGroups) (filter : Option (Nat → Bool)) :
    Option (Nat × RayIntersection) :=
  let ps := qp.as_composite_shape colliders query_groups filter
  (qp.qbvh.traverse_best_first fun h =>
    match ps.map_typed_part_at h with
    | none => none
    | some (pos, sh) =>
      (sh.cast_ray_and_get_normal pos ray max_toi solid).map fun hit =>
        (hit.toi, (h, hit))).map Prod.snd

/-- Source `QueryPipeline::intersection_with_shape`: best-first search for
one intersecting part (visitor
`IntersectionCompositeShapeShapeBestFirstVisitor`: per part, the dispatcher's
intersection test at relative pose `shape_pos⁻¹ * part_pos`; any confirmed
intersection has cost zero, so the first confirmed part found wins). -/
def QueryPipeline.intersection_with_shape (qp : QueryPipeline)
    (colliders : ColliderSet) (shape_pos : Isometry) (shape : Shape)
    (query_groups : InteractionGroups) (filter : Option (Nat → Bool)) :
    Option Nat :=
  let ps := qp.as_composite_shape colliders query_groups filter
  (qp.qbvh.traverse_best_first fun h =>
    match ps.map_typed_part_at h with
    | none => none
    | some (pos, sh) =>
      match qp.query_dispatcher.intersection_test (shape_pos.inverse * pos) shape sh with
      | Except.ok true => some (0, h)
      | _ => none).map Prod.snd

/-- Source `QueryPipeline::project_point`: best-first search for the closest
point projection (visitor `PointCompositeShapeProjBestFirstVisitor`: per
part, project the point with the caller's solid flag; the cost is the
distance from the query point to the projection). -/
def QueryPipeline.project_point (qp : QueryPipeline) (colliders : ColliderSet)
    (point : ℤ) (solid : Bool) (query_groups : InteractionGroups)
    (filter : Option (Nat → Bool)) : Option (Nat × PointProjection) :=
  let ps := qp.as_composite_shape colliders query_groups filter
  (qp.qbvh.traverse_best_first fun h =>
    match ps.map_typed_part_at h with
    | none => none
    | some (pos, sh) =>
      let proj := sh.project_point pos point solid
      some (|point - proj.point|, (h, proj))).map Prod.snd

/-- Source `QueryPipeline::project_point_and_get_feature`: best-first search
for the closest projection with its feature id (visitor
`PointCompositeShapeProjWithFeatureBestFirstVisitor`), with the solid flag
hard-wired to `false`. -/
def QueryPipeline.project_point_and_get_feature (qp : QueryPipeline)
    (colliders : ColliderSet) (point : ℤ) (query_groups : InteractionGroups)
    (filter : Option (Nat → Bool)) : Option (Nat × PointProjection × FeatureId) :=
  let ps := qp.as_composite_shape colliders query_groups filter
  (qp.qbvh.traverse_best_first fun h =>
    match ps.map_typed_part_at h with
    | none => none
    | some (pos, sh) =>
      let pf := sh.project_point_with_feature pos point false
      some (|point - pf.1.point|, (h, pf.1, pf.2))).map Prod.snd

/-- The solid-parameterised counterpart of `project_point_and_get_feature`,
following the spec's words for the solid/hollow distinction; the source
operation is this with `solid = false`. -/
def QueryPipeline.project_point_and_get_feature_solid (qp : QueryPipeline)
    (colliders : ColliderSet) (point : ℤ) (solid : Bool)
    (query_groups : InteractionGroups) (filter : Option (Nat → Bool)) :
    Option (Nat × PointProjection × FeatureId) :=
  let ps := qp.as_composite_shape colliders query_groups filter
  (qp.qbvh.traverse_best_first fun h =>
    match ps.map_typed_part_at h with
    | none => none
    | some (pos, sh) =>
      let pf := sh.project_point_with_feature pos point solid
      some (|point - pf.1.point|, (h, pf.1, pf.2))).map Prod.snd

/-- Source `QueryPipeline::cast_shape`: best-first search for the earliest
linear-sweep impact (visitor `TOICompositeShapeShapeBestFirstVisitor`: per
part, the dispatcher's time-of-impact query; the cost is the impact time). -/
def QueryPipeline.cast_shape (qp : QueryPipeline) (colliders : ColliderSet)
    (shape_pos : Isometry) (shape_vel : ℤ) (shape : Shape) (max_toi : ℤ)
    (query_groups : InteractionGroups) (filter : Option (Nat → Bool)) :
    Option (Nat × TOI) :=
  let ps := qp.as_composite_shape colliders query_groups filter
  (qp.qbvh.traverse_best_first fun h =>
    match ps.map_typed_part_at h with
    | none => none
    | some (pos, sh) =>
      (qp.query_dispatcher.time_of_impact shape_pos shape_vel pos sh shape max_toi).map
        fun t => (t.toi, (h, t))).map Prod.snd

/-- Source `QueryPipeline::nonlinear_cast_shape`: best-first search for the
earliest nonlinear-sweep impact (visitor
`NonlinearTOICompositeShapeShapeBestFirstVisitor`), with the composite
shape's own motion set to `NonlinearRigidMotion::identity()`. -/
def QueryPipeline.nonlinear_cast_shape (qp : QueryPipeline)
    (colliders : ColliderSet) (shape_motion : NonlinearRigidMotion) (shape : Shape)
    (start_time end_time : ℤ) (stop_at_penetration : Bool)
    (query_groups : InteractionGroups) (filter : Option (Nat → Bool)) :
    Option (Nat × TOI) :=
  let ps := qp.as_composite_shape colliders query_groups filter
  let pipeline_motion := NonlinearRigidMotion.identity
  (qp.qbvh.traverse_best_first fun h =>
    match ps.map_typed_part_at h with
    | none => none
    | some (pos, sh) =>
      (qp.query_dispatcher.nonlinear_time_of_impact pipeline_motion pos sh
          shape_motion shape start_time end_time stop_at_penetration).map
        fun t => (t.toi, (h, t))).map Prod.snd

/-- Source: the leaf callback of `QueryPipeline::intersections_with_ray`:
skip handles missing from the store, test groups and predicate, cast the ray
on the collider's shape, and only on a hit invoke the user callback (whose
continuation flag is returned); the traversal state also records the handles
the user callback was invoked on. -/
def rayLeafCb {σ : Type} (colliders : ColliderSet) (ray : Ray) (max_toi : ℤ)
    (solid : Bool) (query_groups : InteractionGroups) (filter : Option (Nat → Bool))
    (callback : σ → Nat → RayIntersection → σ × Bool) :
    σ × List Nat → Nat → (σ × List Nat) × Bool :=
  fun st h =>
    match colliders.get h with
    | none => (st, true)
    | some co =>
      if co.collision_groups.test query_groups && (filter.map fun f => f h).getD true then
        match co.shape.cast_ray_and_get_normal co.pos ray max_toi solid with
        | some hit =>
          let r := callback st.1 h hit
          ((r.1, st.2 ++ [h]), r.2)
        | none => (st, true)
      else (st, true)

/-- Source `QueryPipeline::intersections_with_ray`: depth-first traversal
with the ray-bound visitor over the leaf callback above.  Returns the final
user state and the list of handles the callback ran on. -/
def QueryPipeline.intersections_with_ray {σ : Type} (qp : QueryPipeline)
    (colliders : ColliderSet) (ray : Ray) (max_toi : ℤ) (solid : Bool)
    (query_groups : InteractionGroups) (filter : Option (Nat → Bool))
    (callback : σ → Nat → RayIntersection → σ × Bool) (s : σ) : σ × List Nat :=
  qp.qbvh.traverse_depth_first (rayAabbOverlap ray max_toi)
    (rayLeafCb colliders ray max_toi solid query_groups filter callback) (s, [])

/-- Source: the leaf callback of `QueryPipeline::intersections_with_point`:
skip absent handles; invoke the user callback only when groups, predicate and
the shape's containment test all pass. -/
def pointLeafCb {σ : Type} (colliders : ColliderSet) (point : ℤ)
    (query_groups : InteractionGroups) (filter : Option (Nat → Bool))
    (callback : σ → Nat → σ × Bool) :
    σ × List Nat → Nat → (σ × List Nat) × Bool :=
  fun st h =>
    match colliders.get h with
    | none => (st, true)
    | some co =>
      if co.collision_groups.test query_groups && (filter.map fun f => f h).getD true
          && co.shape.contains_point co.pos point then
        let r := callback st.1 h
        ((r.1, st.2 ++ [h]), r.2)
      else (st, true)

/-- Source `QueryPipeline::intersections_with_point`: depth-first traversal
with the point-bound visitor over the leaf callback above. -/
def QueryPipeline.intersections_with_point {σ : Type} (qp : QueryPipeline)
    (colliders : ColliderSet) (point : ℤ) (query_groups : InteractionGroups)
    (filter : Option (Nat → Bool)) (callback : σ → Nat → σ × Bool) (s : σ) :
    σ × List Nat :=
  qp.qbvh.traverse_depth_first (pointAabbOverlap point)
    (pointLeafCb colliders point query_groups filter callback) (s, [])

/-- Source: the leaf callback of `QueryPipeline::intersections_with_shape`:
skip absent handles; after groups and predicate pass, run the dispatcher's
intersection test at relative pose `shape_pos⁻¹ * collider_pos` and invoke
the user callback only on `Ok(true)` — an error or `Ok(false)` is
non-matching and the traversal continues. -/
def shapeLeafCb {σ : Type} (d : QueryDispatcher) (colliders : ColliderSet)
    (inv_shape_pos : Isometry) (shape : Shape) (query_groups : InteractionGroups)
    (filter : Option (Nat → Bool)) (callback : σ → Nat → σ × Bool) :
    σ × List Nat → Nat → (σ × List Nat) × Bool :=
  fun st h =>
    match colliders.get h with
    | none => (st, true)
    | some co =>
      if co.collision_groups.test query_groups && (filter.map fun f => f h).getD true then
        match d.intersection_test (inv_shape_pos * co.pos) shape co.shape with
        | Except.ok true =>
          let r := callback st.1 h
          ((r.1, st.2 ++ [h]), r.2)
        | _ => (st, true)
      else (st, true)

/-- Source `QueryPipeline::intersections_with_shape`: depth-first traversal
bounded by the cast shape's AABB over the leaf callback above. -/
def QueryPipeline.intersections_with_shape {σ : Type} (qp : QueryPipeline)
    (colliders : ColliderSet) (shape_pos : Isometry) (shape : Shape)
    (query_groups : InteractionGroups) (filter : Option (Nat → Bool))
    (callback : σ → Nat → σ × Bool) (s : σ) : σ × List Nat :=
  let shape_aabb := shape.compute_aabb shape_pos
  qp.qbvh.traverse_depth_first (fun b => shape_aabb.intersects b)
    (shapeLeafCb qp.query_dispatcher colliders shape_pos.inverse shape
      query_groups filter callback) (s, [])

/-- Source `QueryPipeline::colliders_with_aabb_intersecting_aabb`:
depth-first traversal bounded by the query AABB; the callback receives every
overlapping leaf's handle directly — no group test, no predicate, and no
collider-store lookup at all. -/
def QueryPipeline.colliders_with_aabb_intersecting_aabb {σ : Type}
    (qp : QueryPipeline) (aabb : AABB) (callback : σ → Nat → σ × Bool) (s : σ) :
    σ × List Nat :=
  qp.qbvh.traverse_depth_first (fun b => aabb.intersects b)
    (fun st h =>
      let r := callback st.1 h
      ((r.1, st.2 ++ [h]), r.2)) (s, [])

/-- The brute-force eligibility test of the spec's filter contract: a
collider takes part in a query iff it is present in the store, its collision
groups pass the group test, and the optional predicate accepts its handle. -/
def eligiblePart (colliders : ColliderSet) (query_groups : InteractionGroups)
    (filter : Option (Nat → Bool)) (h : Nat) : Option Collider :=
  match colliders.get h with
  | none => none
  | some co =>
    if co.collision_groups.test query_groups && (filter.map fun f => f h).getD true then
      some co
    else none

/-- The brute-force per-handle ray cast: the time of impact the closest-hit
reference scan attributes to a handle (none if ineligible or missed). -/
def castRayToi (colliders : ColliderSet) (query_groups : InteractionGroups)
    (filter : Option (Nat → Bool)) (ray : Ray) (max_toi : ℤ) (solid : Bool)
    (h : Nat) : Option ℤ :=
  (eligiblePart colliders query_groups filter h).bind fun co =>
    co.shape.cast_ray co.pos ray max_toi solid

/-- The brute-force per-handle detailed ray cast. -/
def rayHit (colliders : ColliderSet) (query_groups : InteractionGroups)
    (filter : Option (Nat → Bool)) (ray : Ray) (max_toi : ℤ) (solid : Bool)
    (h : Nat) : Option RayIntersection :=
  (eligiblePart colliders query_groups filter h).bind fun co =>
    co.shape.cast_ray_and_get_normal co.pos ray max_toi solid

/-- The brute-force per-handle point-containment test. -/
def pointHit (colliders : ColliderSet) (query_groups : InteractionGroups)
    (filter : Option (Nat → Bool)) (point : ℤ) (h : Nat) : Option Unit :=
  (eligiblePart colliders query_groups filter h).bind fun co =>
    if co.shape.contains_point co.pos point then some () else none

/-- The brute-force per-handle shape-intersection test (errors from the
dispatcher are non-matching). -/
def shapeHit (d : QueryDispatcher) (colliders : ColliderSet)
    (query_groups : InteractionGroups) (filter : Option (Nat → Bool))
    (inv_shape_pos : Isometry) (shape : Shape) (h : Nat) : Option Unit :=
  (eligiblePart colliders query_groups filter h).bind fun co =>
    match d.intersection_test (inv_shape_pos * co.pos) shape co.shape with
    | Except.ok true => some ()
    | _ => none

/-- The brute-force per-handle point projection (distance, projection). -/
def projectHit (colliders : ColliderSet) (query_groups : InteractionGroups)
    (filter : Option (Nat → Bool)) (point : ℤ) (solid : Bool) (h : Nat) :
    Option (ℤ × PointProjection) :=
  (eligiblePart colliders query_groups filter h).map fun co =>
    let proj := co.shape.project_point co.pos point solid
    (|point - proj.point|, proj)

/-- The brute-force per-handle hollow point projection with feature id. -/
def projectFeatureHit (colliders : ColliderSet) (query_groups : InteractionGroups)
    (filter : Option (Nat → Bool)) (point : ℤ) (h : Nat) :
    Option (PointProjection × FeatureId) :=
  (eligiblePart colliders query_groups filter h).map fun co =>
    co.shape.project_point_with_feature co.pos point false

/-- The brute-force per-handle linear shape cast. -/
def castShapeHit (d : QueryDispatcher) (colliders : ColliderSet)
    (query_groups : InteractionGroups) (filter : Option (Nat → Bool))
    (shape_pos : Isometry) (shape_vel : ℤ) (shape : Shape) (max_toi : ℤ)
    (h : Nat) : Option TOI :=
  (eligiblePart colliders query_groups filter h).bind fun co =>
    d.time_of_impact shape_pos shape_vel co.pos co.shape shape max_toi

/-- The brute-force per-handle nonlinear shape cast against a stationary
collider (identity motion on the collider side). -/
def nonlinearHit (d : QueryDispatcher) (colliders : ColliderSet)
    (query_groups : InteractionGroups) (filter : Option (Nat → Bool))
    (shape_motion : NonlinearRigidMotion) (shape : Shape)
    (start_time end_time : ℤ) (stop_at_penetration : Bool) (h : Nat) : Option TOI :=
  (eligiblePart colliders query_groups filter h).bind fun co =>
    d.nonlinear_time_of_impact NonlinearRigidMotion.identity co.pos co.shape
      shape_motion shape start_time end_time stop_at_penetration

/-- `nonlinear_cast_shape` as the claim words it: the colliders are treated
as stationary over the whole interval — each candidate's time of impact is
computed against the collider fixed at its indexed pose. -/
def nonlinearCastShapeStationary (qp : QueryPipeline) (colliders : ColliderSet)
    (shape_motion : NonlinearRigidMotion) (shape : Shape)
    (start_time end_time : ℤ) (stop_at_penetration : Bool)
    (query_groups : InteractionGroups) (filter : Option (Nat → Bool)) :
    Option (Nat × TOI) :=
  (qp.qbvh.traverse_best_first fun h =>
    (nonlinearHit qp.query_dispatcher colliders query_groups filter shape_motion
        shape start_time end_time stop_at_penetration h).map
      fun t => (t.toi, (h, t))).map Prod.snd

/-- The common shape of every store-consulting depth-first leaf callback:
evaluate a per-handle hit function; on a hit invoke the user callback and
record the handle, otherwise continue untouched. -/
def leafStep {σ α : Type} (hit : Nat → Option α)
    (callback : σ → Nat → α → σ × Bool) :
    σ × List Nat → Nat → (σ × List Nat) × Bool :=
  fun st h =>
    match hit h with
    | some x =>
      let r := callback st.1 h x
      ((r.1, st.2 ++ [h]), r.2)
    | none => (st, true)

/-- A handle never surfaces from any filtered query operation: not as the
winner of any closest/any-result query, and never as a callback argument of
any store-consulting all-matches query. -/
def NeverAppears (qp : QueryPipeline) (colliders : ColliderSet)
    (query_groups : InteractionGroups) (filter : Option (Nat → Bool)) (h : Nat) :
    Prop :=
  (∀ ray max_toi solid t,
    qp.cast_ray colliders ray max_toi solid query_groups filter ≠ some (h, t)) ∧
  (∀ ray max_toi solid hit,
    qp.cast_ray_and_get_normal colliders ray max_toi solid query_groups filter ≠
      some (h, hit)) ∧
  (∀ shape_pos shape,
    qp.intersection_with_shape colliders shape_pos shape query_groups filter ≠
      some h) ∧
  (∀ point solid proj,
    qp.project_point colliders point solid query_groups filter ≠ some (h, proj)) ∧
  (∀ point proj fid,
    qp.project_point_and_get_feature colliders point query_groups filter ≠
      some (h, proj, fid)) ∧
  (∀ shape_pos shape_vel shape max_toi t,
    qp.cast_shape colliders shape_pos shape_vel shape max_toi query_groups filter ≠
      some (h, t)) ∧
  (∀ shape_motion shape start_time end_time stp t,
    qp.nonlinear_cast_shape colliders shape_motion shape start_time end_time stp
      query_groups filter ≠ some (h, t)) ∧
  (∀ (σ : Type) ray max_toi solid (cb : σ → Nat → RayIntersection → σ × Bool) s,
    h ∉ (qp.intersections_with_ray colliders ray max_toi solid query_groups filter
      cb s).2) ∧
  (∀ (σ : Type) point (cb : σ → Nat → σ × Bool) s,
    h ∉ (qp.intersections_with_point colliders point query_groups filter cb s).2) ∧
  (∀ (σ : Type) shape_pos shape (cb : σ → Nat → σ × Bool) s,
    h ∉ (qp.intersections_with_shape colliders shape_pos shape query_groups filter
      cb s).2)

/-- One recorded call to `update_with_mode`: active bodies, body store,
collider store, mode. -/
structure UpdateCall where
  islands : IslandManager
  bodies : RigidBodySet
  colliders : ColliderSet
  mode : QueryPipelineMode

/-- Replay a history of `update_with_mode` calls on a pipeline. -/
def applyUpdates (qp : QueryPipeline) (calls : List UpdateCall) : QueryPipeline :=
  calls.foldl (fun p c => p.update_with_mode c.islands c.bodies c.colliders c.mode) qp

/-! Concrete instances used to evaluate the model on closed inputs. -/

/-- Groups that pass the test against themselves. -/
def gAll : InteractionGroups := ⟨1, 1⟩

/-- Groups with empty membership and filter: they fail every group test. -/
def gNone : InteractionGroups := ⟨0, 0⟩

/-- A small box. -/
def boxA : AABB := ⟨0, 1⟩

/-- A second, disjoint box. -/
def boxB : AABB := ⟨2, 3⟩

/-- A concrete shape whose kernels are constants: ray hits at time 3,
hollow projection lands at 5 (its declared boundary point). -/
def shA : Shape :=
  ⟨fun _ => boxA, fun _ _ => boxA, fun _ _ _ _ => some 3,
    fun _ _ _ _ => some ⟨3, 1, 0⟩, fun _ _ => true, fun _ _ _ => ⟨true, 1⟩,
    fun _ _ _ => (⟨true, 5⟩, 2), fun _ q => decide (q = 5)⟩

/-- A second concrete shape: ray hits at time 5, hollow projection lands at
10 (its declared boundary point). -/
def shB : Shape :=
  ⟨fun _ => boxB, fun _ _ => boxB, fun _ _ _ _ => some 5,
    fun _ _ _ _ => some ⟨5, 1, 0⟩, fun _ _ => true, fun _ _ _ => ⟨false, 10⟩,
    fun _ _ _ => (⟨false, 10⟩, 7), fun _ q => decide (q = 10)⟩

/-- A query shape with a huge bounding box (so depth-first bound tests pass). -/
def shQ : Shape := { shA with compute_aabb := fun _ => ⟨-1000, 1000⟩ }

/-- A concrete dispatcher: the intersection test errors exactly when the
relative pose has translation 99 and confirms otherwise; both time-of-impact
kernels report the collider's translation as the impact time. -/
def dW : QueryDispatcher :=
  ⟨fun pos12 _ _ => if pos12.t == 99 then Except.error () else Except.ok true,
    fun _ _ pos _ _ _ => some ⟨pos.t⟩,
    fun _ pos _ _ _ _ _ _ => some ⟨pos.t⟩⟩

/-- A collider at the origin with shape `shA`, groups `gAll`, no parent. -/
def coA : Collider := ⟨gAll, ⟨0⟩, shA, none⟩

/-- A collider at translation 2 with shape `shB`, groups `gAll`, no parent. -/
def coB : Collider := ⟨gAll, ⟨2⟩, shB, none⟩

/-- A two-collider store. -/
def csW : ColliderSet := [(1, coA), (2, coB)]

/-- A pipeline whose index holds the two colliders of `csW`. -/
def pW : QueryPipeline := ⟨dW, ⟨[(1, boxA), (2, boxB)], []⟩, false, 1⟩

/-- A collider whose groups fail every group test. -/
def coX : Collider := ⟨gNone, ⟨0⟩, shA, none⟩

/-- A store holding only the group-failing collider under handle 3. -/
def csX : ColliderSet := [(3, coX)]

/-- A pipeline whose index holds handle 3 (the group-failing collider). -/
def pX : QueryPipeline := ⟨dW, ⟨[(3, boxA)], []⟩, false, 1⟩

/-- A pipeline whose index holds handle 9, absent from every store used with
it (a stale entry). -/
def pStale : QueryPipeline := ⟨dW, ⟨[(9, boxA)], []⟩, false, 1⟩

/-- A concrete ray from the origin along positive direction. -/
def rayW : Ray := ⟨0, 1⟩

/-- A trivial body store (no bodies are ever dereferenced in the concrete
scenes, all their colliders are unparented). -/
def bodiesW : RigidBodySet := fun _ => ⟨⟨⟨0⟩, ⟨0⟩⟩, [], fun _ => ⟨0⟩⟩

/-! Lemmas about the best-first search. -/

lemma bfMerge_eq_none {α : Type} {b c : Option (ℤ × α)} (h : bfMerge b c = none) :
    b = none ∧ c = none := by
  cases c with
  | none => exact ⟨h, rfl⟩
  | some p =>
    rcases p with ⟨c1, a1⟩
    cases b with
    | none => simp [bfMerge] at h
    | some q =>
      rcases q with ⟨c0, a0⟩
      by_cases hlt : c1 < c0 <;> simp [bfMerge, hlt] at h

lemma bfMerge_some_src {α : Type} {b c : Option (ℤ × α)} {x : ℤ × α}
    (h : bfMerge b c = some x) : b = some x ∨ c = some x := by
  cases c with
  | none => exact Or.inl h
  | some p =>
    rcases p with ⟨c1, a1⟩
    cases b with
    | none => exact Or.inr h
    | some q =>
      rcases q with ⟨c0, a0⟩
      by_cases hlt : c1 < c0
      · right
        simpa [bfMerge, hlt] using h
      · left
        simpa [bfMerge, hlt] using h

lemma bfMerge_min {α : Type} {b c : Option (ℤ × α)} {x : ℤ × α}
    (h : bfMerge b c = some x) :
    (∀ y : ℤ × α, b = some y → x.1 ≤ y.1) ∧ (∀ y : ℤ × α, c = some y → x.1 ≤ y.1) := by
  cases c with
  | none =>
    refine ⟨fun y hy => ?_, fun y hy => by simp at hy⟩
    have h' : b = some x := h
    rw [Option.some.inj (h'.symm.trans hy)]
  | some p =>
    rcases p with ⟨c1, a1⟩
    cases b with
    | none =>
      refine ⟨fun y hy => by simp at hy, fun y hy => ?_⟩
      have h' : some (c1, a1) = some x := h
      rw [Option.some.inj (h'.symm.trans hy)]
    | some q =>
      rcases q with ⟨c0, a0⟩
      by_cases hlt : c1 < c0
      · have hx : x = (c1, a1) := by simpa [bfMerge, hlt] using h.symm
        subst hx
        constructor
        · rintro y hy
          cases hy
          exact le_of_lt hlt
        · rintro y hy
          cases hy
          exact le_refl _
      · have hx : x = (c0, a0) := by simpa [bfMerge, hlt] using h.symm
        subst hx
        constructor
        · rintro y hy
          cases hy
          exact le_refl _
        · rintro y hy
          cases hy
          exact le_of_not_lt hlt

lemma bfGo_none {α : Type} (f : Nat → Option (ℤ × α)) :
    ∀ (l : List (Nat × AABB)) (b : Option (ℤ × α)),
      bfGo f l b = none → b = none ∧ ∀ p ∈ l, f p.1 = none
  | [], b, h => ⟨h, by simp⟩
  | p :: rest, b, h => by
    have hrec := bfGo_none f rest (bfMerge b (f p.1)) h
    have hm := bfMerge_eq_none hrec.1
    refine ⟨hm.1, ?_⟩
    intro q hq
    rcases List.mem_cons.mp hq with hq | hq
    · rw [hq]; exact hm.2
    · exact hrec.2 q hq

lemma bfGo_some {α : Type} (f : Nat → Option (ℤ × α)) :
    ∀ (l : List (Nat × AABB)) (b : Option (ℤ × α)) (x : ℤ × α),
      bfGo f l b = some x →
      (b = some x ∨ ∃ p ∈ l, f p.1 = some x) ∧
      (∀ y, b = some y → x.1 ≤ y.1) ∧
      (∀ p ∈ l, ∀ y, f p.1 = some y → x.1 ≤ y.1)
  | [], b, x, h => by
    refine ⟨Or.inl h, fun y hy => ?_, by simp⟩
    have h' : b = some x := h
    rw [Option.some.inj (h'.symm.trans hy)]
  | p :: rest, b, x, h => by
    have hrec := bfGo_some f rest (bfMerge b (f p.1)) x h
    rcases hrec with ⟨hsrc, hminb, hminrest⟩
    constructor
    · rcases hsrc with hsrc | hsrc
      · rcases bfMerge_some_src hsrc with hb | hc
        · exact Or.inl hb
        · exact Or.inr ⟨p, List.mem_cons_self p rest, hc⟩
      · rcases hsrc with ⟨q, hq, hfq⟩
        exact Or.inr ⟨q, List.mem_cons_of_mem p hq, hfq⟩
    · constructor
      · intro y hy
        cases hmm : bfMerge b (f p.1) with
        | none => exact absurd ((bfMerge_eq_none hmm).1.symm.trans hy) (by simp)
        | some z =>
          exact le_trans (hminb z hmm) ((bfMerge_min hmm).1 y hy)
      · intro q hq y hfy
        rcases List.mem_cons.mp hq with hq | hq
        · cases hmm : bfMerge b (f p.1) with
          | none =>
            have := (bfMerge_eq_none hmm).2
            rw [hq] at hfy
            rw [hfy] at this
            exact absurd this (by simp)
          | some z =>
            refine le_trans (hminb z hmm) ((bfMerge_min hmm).2 y ?_)
            rw [← hq]; exact hfy
        · exact hminrest q hq y hfy

lemma tbf_some {α : Type} (t : QBVH) (f : Nat → Option (ℤ × α)) (x : ℤ × α)
    (h : t.traverse_best_first f = some x) :
    (∃ p ∈ t.leaves, f p.1 = some x) ∧
      ∀ p ∈ t.leaves, ∀ y, f p.1 = some y → x.1 ≤ y.1 := by
  have := bfGo_some f t.leaves none x h
  rcases this with ⟨hsrc, _, hmin⟩
  rcases hsrc with hsrc | hsrc
  · simp at hsrc
  · exact ⟨hsrc, hmin⟩

lemma tbf_none {α : Type} (t : QBVH) (f : Nat → Option (ℤ × α))
    (h : t.traverse_best_first f = none) : ∀ p ∈ t.leaves, f p.1 = none :=
  (bfGo_none f t.leaves none h).2

lemma bf_op_some {α β : Type} (t : QBVH) (hit : Nat → Option α) (cost : α → ℤ)
    (pay : α → β) (h : Nat) (b : β)
    (hres : (t.traverse_best_first fun k =>
        (hit k).map fun x => (cost x, (k, pay x))).map Prod.snd = some (h, b)) :
    ∃ x, hit h = some x ∧ pay x = b ∧ (∃ p ∈ t.leaves, p.1 = h) ∧
      ∀ p ∈ t.leaves, ∀ y, hit p.1 = some y → cost x ≤ cost y := by
  rcases Option.map_eq_some'.mp hres with ⟨⟨c, hb⟩, htb, hsnd⟩
  rcases tbf_some t _ _ htb with ⟨⟨p, hp, hfp⟩, hmin⟩
  rcases Option.map_eq_some'.mp hfp with ⟨x, hx, hpair⟩
  have hk : p.1 = h := by
    have := congrArg (fun z => z.2.1) hpair
    simpa using this.trans (congrArg Prod.fst hsnd)
  have hcx : cost x = c := by
    have := congrArg Prod.fst hpair
    simpa using this
  have hpx : pay x = b := by
    have := congrArg (fun z => z.2.2) hpair
    simpa using this.trans (congrArg Prod.snd hsnd)
  refine ⟨x, by rw [← hk]; exact hx, hpx, ⟨p, hp, hk⟩, ?_⟩
  intro q hq y hy
  have := hmin q hq (cost y, (q.1, pay y)) (by rw [hy]; rfl)
  simpa [hcx] using this

lemma bf_op_none {α β : Type} (t : QBVH) (hit : Nat → Option α) (cost : α → ℤ)
    (pay : α → β)
    (hres : (t.traverse_best_first fun k =>
        (hit k).map fun x => (cost x, (k, pay x))).map Prod.snd = none) :
    ∀ p ∈ t.leaves, hit p.1 = none := by
  intro p hp
  have htb := Option.map_eq_none'.mp hres
  have := tbf_none t _ htb p hp
  exact Option.map_eq_none'.mp this

lemma bf_oph_some {α : Type} (t : QBVH) (hit : Nat → Option α) (cost : α → ℤ)
    (h : Nat)
    (hres : (t.traverse_best_first fun k =>
        (hit k).map fun x => (cost x, k)).map Prod.snd = some h) :
    ∃ x, hit h = some x ∧ (∃ p ∈ t.leaves, p.1 = h) ∧
      ∀ p ∈ t.leaves, ∀ y, hit p.1 = some y → cost x ≤ cost y := by
  rcases Option.map_eq_some'.mp hres with ⟨⟨c, k⟩, htb, hsnd⟩
  rcases tbf_some t _ _ htb with ⟨⟨p, hp, hfp⟩, hmin⟩
  rcases Option.map_eq_some'.mp hfp with ⟨x, hx, hpair⟩
  have hk : p.1 = h := by
    have := congrArg Prod.snd hpair
    simpa using this.trans hsnd
  have hcx : cost x = c := by
    have := congrArg Prod.fst hpair
    simpa using this
  refine ⟨x, by rw [← hk]; exact hx, ⟨p, hp, hk⟩, ?_⟩
  intro q hq y hy
  have := hmin q hq (cost y, q.1) (by rw [hy]; rfl)
  simpa [hcx] using this

lemma bf_oph_none {α : Type} (t : QBVH) (hit : Nat → Option α) (cost : α → ℤ)
    (hres : (t.traverse_best_first fun k =>
        (hit k).map fun x => (cost x, k)).map Prod.snd = none) :
    ∀ p ∈ t.leaves, hit p.1 = none := by
  intro p hp
  have htb := Option.map_eq_none'.mp hres
  have := tbf_none t _ htb p hp
  exact Option.map_eq_none'.mp this

/-! Rewriting each best-first operation into its brute-force per-handle form. -/

lemma map_typed_part_at_eq (qp : QueryPipeline) (colliders : ColliderSet)
    (query_groups : InteractionGroups) (filter : Option (Nat → Bool)) (h : Nat) :
    (qp.as_composite_shape colliders query_groups filter).map_typed_part_at h =
      (eligiblePart colliders query_groups filter h).map fun co => (co.pos, co.shape) := by
  unfold QueryPipeline.as_composite_shape QueryPipelineAsCompositeShape.map_typed_part_at
    eligiblePart
  cases colliders.get h with
  | none => rfl
  | some co =>
    cases hc : (co.collision_groups.test query_groups &&
        (filter.map fun f => f h).getD true) <;> simp [hc]

lemma cast_ray_eq_bf (qp : QueryPipeline) (colliders : ColliderSet) (ray : Ray)
    (max_toi : ℤ) (solid : Bool) (query_groups : InteractionGroups)
    (filter : Option (Nat → Bool)) :
    qp.cast_ray colliders ray max_toi solid query_groups filter =
      (qp.qbvh.traverse_best_first fun k =>
        (castRayToi colliders query_groups filter ray max_toi solid k).map
          fun t => (id t, (k, id t))).map Prod.snd := by
  unfold QueryPipeline.cast_ray castRayToi
  refine congrArg (Option.map Prod.snd)
    (congrArg qp.qbvh.traverse_best_first (funext fun k => ?_))
  rw [map_typed_part_at_eq]
  cases eligiblePart colliders query_groups filter k <;> rfl

lemma cast_ray_normal_eq_bf (qp : QueryPipeline) (colliders : ColliderSet) (ray : Ray)
    (max_toi : ℤ) (solid : Bool) (query_groups : InteractionGroups)
    (filter : Option (Nat → Bool)) :
    qp.cast_ray_and_get_normal colliders ray max_toi solid query_groups filter =
      (qp.qbvh.traverse_best_first fun k =>
        (rayHit colliders query_groups filter ray max_toi solid k).map
          fun hit => (hit.toi, (k, id hit))).map Prod.snd := by
  unfold QueryPipeline.cast_ray_and_get_normal rayHit
  refine congrArg (Option.map Prod.snd)
    (congrArg qp.qbvh.traverse_best_first (funext fun k => ?_))
  rw [map_typed_part_at_eq]
  cases eligiblePart colliders query_groups filter k <;> rfl

lemma intersection_with_shape_eq_bf (qp : QueryPipeline) (colliders : ColliderSet)
    (shape_pos : Isometry) (shape : Shape) (query_groups : InteractionGroups)
    (filter : Option (Nat → Bool)) :
    qp.intersection_with_shape colliders shape_pos shape query_groups filter =
      (qp.qbvh.traverse_best_first fun k =>
        (shapeHit qp.query_dispatcher colliders query_groups filter shape_pos.inverse
            shape k).map fun x => ((fun _ => (0 : ℤ)) x, k)).map Prod.snd := by
  unfold QueryPipeline.intersection_with_shape shapeHit
  refine congrArg (Option.map Prod.snd)
    (congrArg qp.qbvh.traverse_best_first (funext fun k => ?_))
  rw [map_typed_part_at_eq]
  cases eligiblePart colliders query_groups filter k with
  | none => rfl
  | some co =>
    simp only [Option.map_some', Option.some_bind]
    cases qp.query_dispatcher.intersection_test (shape_pos.inverse * co.pos) shape
        co.shape with
    | error e => rfl
    | ok v => cases v <;> rfl

lemma project_point_eq_bf (qp : QueryPipeline) (colliders : ColliderSet) (point : ℤ)
    (solid : Bool) (query_groups : InteractionGroups) (filter : Option (Nat → Bool)) :
    qp.project_point colliders point solid query_groups filter =
      (qp.qbvh.traverse_best_first fun k =>
        (projectHit colliders query_groups filter point solid k).map
          fun y => (Prod.fst y, (k, Prod.snd y))).map Prod.snd := by
  unfold QueryPipeline.project_point projectHit
  refine congrArg (Option.map Prod.snd)
    (congrArg qp.qbvh.traverse_best_first (funext fun k => ?_))
  rw [map_typed_part_at_eq]
  cases eligiblePart colliders query_groups filter k <;> rfl

lemma project_point_feature_eq_bf (qp : QueryPipeline) (colliders : ColliderSet)
    (point : ℤ) (query_groups : InteractionGroups) (filter : Option (Nat → Bool)) :
    qp.project_point_and_get_feature colliders point query_groups filter =
      (qp.qbvh.traverse_best_first fun k =>
        (projectFeatureHit colliders query_groups filter point k).map
          fun pf => (|point - pf.1.point|, (k, (pf.1, pf.2)))).map Prod.snd := by
  unfold QueryPipeline.project_point_and_get_feature projectFeatureHit
  refine congrArg (Option.map Prod.snd)
    (congrArg qp.qbvh.traverse_best_first (funext fun k => ?_))
  rw [map_typed_part_at_eq]
  cases eligiblePart colliders query_groups filter k <;> rfl

lemma cast_shape_eq_bf (qp : QueryPipeline) (colliders : ColliderSet)
    (shape_pos : Isometry) (shape_vel : ℤ) (shape : Shape) (max_toi : ℤ)
    (query_groups : InteractionGroups) (filter : Option (Nat → Bool)) :
    qp.cast_shape colliders shape_pos shape_vel shape max_toi query_groups filter =
      (qp.qbvh.traverse_best_first fun k =>
        (castShapeHit qp.query_dispatcher colliders query_groups filter shape_pos
            shape_vel shape max_toi k).map fun t => (t.toi, (k, id t))).map Prod.snd := by
  unfold QueryPipeline.cast_shape castShapeHit
  refine congrArg (Option.map Prod.snd)
    (congrArg qp.qbvh.traverse_best_first (funext fun k => ?_))
  rw [map_typed_part_at_eq]
  cases eligiblePart colliders query_groups filter k <;> rfl

lemma nonlinear_cast_shape_eq_bf (qp : QueryPipeline) (colliders : ColliderSet)
    (shape_motion : NonlinearRigidMotion) (shape : Shape) (start_time end_time : ℤ)
    (stop_at_penetration : Bool) (query_groups : InteractionGroups)
    (filter : Option (Nat → Bool)) :
    qp.nonlinear_cast_shape colliders shape_motion shape start_time end_time
        stop_at_penetration query_groups filter =
      (qp.qbvh.traverse_best_first fun k =>
        (nonlinearHit qp.query_dispatcher colliders query_groups filter shape_motion
            shape start_time end_time stop_at_penetration k).map
          fun t => (t.toi, (k, id t))).map Prod.snd := by
  unfold QueryPipeline.nonlinear_cast_shape nonlinearHit
  refine congrArg (Option.map Prod.snd)
    (congrArg qp.qbvh.traverse_best_first (funext fun k => ?_))
  rw [map_typed_part_at_eq]
  cases eligiblePart colliders query_groups filter k <;> rfl

/-! Lemmas about the depth-first traversal. -/

lemma leafStep_none {σ α : Type} (hit : Nat → Option α)
    (cb : σ → Nat → α → σ × Bool) (st : σ × List Nat) (h : Nat)
    (hh : hit h = none) : leafStep hit cb st h = (st, true) := by
  unfold leafStep
  rw [hh]

lemma leafStep_some {σ α : Type} (hit : Nat → Option α)
    (cb : σ → Nat → α → σ × Bool) (st : σ × List Nat) (h : Nat) (x : α)
    (hh : hit h = some x) :
    leafStep hit cb st h = (((cb st.1 h x).1, st.2 ++ [h]), (cb st.1 h x).2) := by
  unfold leafStep
  rw [hh]

lemma dfRun_mem_trace {σ α : Type} (bv : AABB → Bool) (hit : Nat → Option α)
    (cb : σ → Nat → α → σ × Bool) :
    ∀ (l : List (Nat × AABB)) (s : σ) (tr : List Nat) (h : Nat),
      h ∈ (dfRun bv (leafStep hit cb) l (s, tr)).2 → h ∈ tr ∨ (hit h).isSome
  | [], _s, _tr, _h, hm => Or.inl hm
  | p :: rest, s, tr, h, hm => by
    simp only [dfRun] at hm
    by_cases hbv : bv p.2
    · rw [if_pos hbv] at hm
      cases hh : hit p.1 with
      | none =>
        rw [leafStep_none hit cb (s, tr) p.1 hh] at hm
        simp only at hm
        exact dfRun_mem_trace bv hit cb rest s tr h hm
      | some x =>
        rw [leafStep_some hit cb (s, tr) p.1 x hh] at hm
        simp only at hm
        by_cases hcont : (cb s p.1 x).2
        · rw [if_pos hcont] at hm
          rcases dfRun_mem_trace bv hit cb rest (cb s p.1 x).1 (tr ++ [p.1]) h hm with
            hmem | hsome
          · rcases List.mem_append.mp hmem with hmem | hmem
            · exact Or.inl hmem
            · right
              rw [List.mem_singleton.mp hmem, hh]
              rfl
          · exact Or.inr hsome
        · rw [if_neg hcont] at hm
          rcases List.mem_append.mp hm with hmem | hmem
          · exact Or.inl hmem
          · right
            rw [List.mem_singleton.mp hmem, hh]
            rfl
    · rw [if_neg hbv] at hm
      exact dfRun_mem_trace bv hit cb rest s tr h hm

lemma dfRun_false_once {σ α : Type} (bv : AABB → Bool) (hit : Nat → Option α)
    (cb : σ → Nat → α → σ × Bool) (hcb : ∀ (s : σ) h x, (cb s h x).2 = false) :
    ∀ (l : List (Nat × AABB)) (s : σ) (tr : List Nat),
      (∃ p ∈ l, bv p.2 = true ∧ (hit p.1).isSome) →
      ∃ h, (dfRun bv (leafStep hit cb) l (s, tr)).2 = tr ++ [h]
  | [], _s, _tr, hex => by
    rcases hex with ⟨p, hp, _⟩
    simp at hp
  | p :: rest, s, tr, hex => by
    simp only [dfRun]
    by_cases hbv : bv p.2
    · rw [if_pos hbv]
      cases hh : hit p.1 with
      | none =>
        rw [leafStep_none hit cb (s, tr) p.1 hh]
        refine dfRun_false_once bv hit cb hcb rest s tr ?_
        rcases hex with ⟨q, hq, hqbv, hqsome⟩
        rcases List.mem_cons.mp hq with hq | hq
        · rw [hq] at hqsome
          rw [hh] at hqsome
          simp at hqsome
        · exact ⟨q, hq, hqbv, hqsome⟩
      | some x =>
        rw [leafStep_some hit cb (s, tr) p.1 x hh]
        rw [hcb s p.1 x]
        exact ⟨p.1, rfl⟩
    · rw [if_neg hbv]
      refine dfRun_false_once bv hit cb hcb rest s tr ?_
      rcases hex with ⟨q, hq, hqbv, hqsome⟩
      rcases List.mem_cons.mp hq with hq | hq
      · rw [hq] at hqbv
        exact absurd hqbv hbv
      · exact ⟨q, hq, hqbv, hqsome⟩

lemma dfRun_skip {σ α : Type} (bv : AABB → Bool) (hit : Nat → Option α)
    (cb : σ → Nat → α → σ × Bool) (h : Nat) (b : AABB) (hh : hit h = none) :
    ∀ (l₁ l₂ : List (Nat × AABB)) (s : σ × List Nat),
      dfRun bv (leafStep hit cb) (l₁ ++ (h, b) :: l₂) s =
        dfRun bv (leafStep hit cb) (l₁ ++ l₂) s
  | [], l₂, s => by
    simp only [List.nil_append, dfRun]
    by_cases hbv : bv b
    · rw [if_pos hbv, leafStep_none hit cb s h hh]
      rfl
    · rw [if_neg hbv]
  | p :: rest, l₂, s => by
    simp only [List.cons_append, dfRun]
    by_cases hbv : bv p.2
    · rw [if_pos hbv, if_pos hbv]
      by_cases hcont : (leafStep hit cb s p.1).2
      · rw [if_pos hcont, if_pos hcont]
        exact dfRun_skip bv hit cb h b hh rest l₂ _
      · rw [if_neg hcont, if_neg hcont]
    · rw [if_neg hbv, if_neg hbv]
      exact dfRun_skip bv hit cb h b hh rest l₂ s

/-! Rewriting each depth-first operation into `leafStep` form. -/

lemma rayLeafCb_eq {σ : Type} (colliders : ColliderSet) (ray : Ray) (max_toi : ℤ)
    (solid : Bool) (query_groups : InteractionGroups) (filter : Option (Nat → Bool))
    (cb : σ → Nat → RayIntersection → σ × Bool) :
    rayLeafCb colliders ray max_toi solid query_groups filter cb =
      leafStep (rayHit colliders query_groups filter ray max_toi solid) cb := by
  funext st h
  unfold rayLeafCb leafStep rayHit eligiblePart
  cases colliders.get h with
  | none => rfl
  | some co =>
    cases hc : (co.collision_groups.test query_groups &&
        (filter.map fun f => f h).getD true) with
    | false => simp [hc]
    | true =>
      simp only [hc, if_true, Option.some_bind]
      cases co.shape.cast_ray_and_get_normal co.pos ray max_toi solid <;> rfl

lemma pointLeafCb_eq {σ : Type} (colliders : ColliderSet) (point : ℤ)
    (query_groups : InteractionGroups) (filter : Option (Nat → Bool))
    (cb : σ → Nat → σ × Bool) :
    pointLeafCb colliders point query_groups filter cb =
      leafStep (pointHit colliders query_groups filter point)
        (fun s k _ => cb s k) := by
  funext st h
  unfold pointLeafCb leafStep pointHit eligiblePart
  cases colliders.get h with
  | none => rfl
  | some co =>
    cases hc : (co.collision_groups.test query_groups &&
        (filter.map fun f => f h).getD true) with
    | false => simp [hc]
    | true =>
      simp only [hc, Bool.true_and, if_true, Option.some_bind]
      cases hcp : co.shape.contains_point co.pos point <;> simp [hcp]

lemma shapeLeafCb_eq {σ : Type} (d : QueryDispatcher) (colliders : ColliderSet)
    (inv_shape_pos : Isometry) (shape : Shape) (query_groups : InteractionGroups)
    (filter : Option (Nat → Bool)) (cb : σ → Nat → σ × Bool) :
    shapeLeafCb d colliders inv_shape_pos shape query_groups filter cb =
      leafStep (shapeHit d colliders query_groups filter inv_shape_pos shape)
        (fun s k _ => cb s k) := by
  funext st h
  unfold shapeLeafCb leafStep shapeHit eligiblePart
  cases colliders.get h with
  | none => rfl
  | some co =>
    cases hc : (co.collision_groups.test query_groups &&
        (filter.map fun f => f h).getD true) with
    | false => simp [hc]
    | true =>
      simp only [hc, if_true, Option.some_bind]
      cases d.intersection_test (inv_shape_pos * co.pos) shape co.shape with
      | error e => rfl
      | ok v => cases v <;> rfl

lemma aabbLeafCb_eq {σ : Type} (cb : σ → Nat → σ × Bool) :
    (fun (st : σ × List Nat) (h : Nat) =>
        let r := cb st.1 h
        ((r.1, st.2 ++ [h]), r.2)) =
      leafStep (fun _ => some ()) (fun s k _ => cb s k) := by
  funext st h
  rfl

lemma intersections_with_ray_eq {σ : Type} (qp : QueryPipeline)
    (colliders : ColliderSet) (ray : Ray) (max_toi : ℤ) (solid : Bool)
    (query_groups : InteractionGroups) (filter : Option (Nat → Bool))
    (cb : σ → Nat → RayIntersection → σ × Bool) (s : σ) :
    qp.intersections_with_ray colliders ray max_toi solid query_groups filter cb s =
      dfRun (rayAabbOverlap ray max_toi)
        (leafStep (rayHit colliders query_groups filter ray max_toi solid) cb)
        qp.qbvh.leaves (s, []) := by
  unfold QueryPipeline.intersections_with_ray QBVH.traverse_depth_first
  rw [rayLeafCb_eq]

lemma intersections_with_point_eq {σ : Type} (qp : QueryPipeline)
    (colliders : ColliderSet) (point : ℤ) (query_groups : InteractionGroups)
    (filter : Option (Nat → Bool)) (cb : σ → Nat → σ × Bool) (s : σ) :
    qp.intersections_with_point colliders point query_groups filter cb s =
      dfRun (pointAabbOverlap point)
        (leafStep (pointHit colliders query_groups filter point)
          (fun s k _ => cb s k)) qp.qbvh.leaves (s, []) := by
  unfold QueryPipeline.intersections_with_point QBVH.traverse_depth_first
  rw [pointLeafCb_eq]

lemma intersections_with_shape_eq {σ : Type} (qp : QueryPipeline)
    (colliders : ColliderSet) (shape_pos : Isometry) (shape : Shape)
    (query_groups : InteractionGroups) (filter : Option (Nat → Bool))
    (cb : σ → Nat → σ × Bool) (s : σ) :
    qp.intersections_with_shape colliders shape_pos shape query_groups filter cb s =
      dfRun (fun b => (shape.compute_aabb shape_pos).intersects b)
        (leafStep (shapeHit qp.query_dispatcher colliders query_groups filter
          shape_pos.inverse shape) (fun s k _ => cb s k)) qp.qbvh.leaves (s, []) := by
  unfold QueryPipeline.intersections_with_shape QBVH.traverse_depth_first
  rw [shapeLeafCb_eq]

lemma colliders_with_aabb_eq {σ : Type} (qp : QueryPipeline) (aabb : AABB)
    (cb : σ → Nat → σ × Bool) (s : σ) :
    qp.colliders_with_aabb_intersecting_aabb aabb cb s =
      dfRun (fun b => aabb.intersects b)
        (leafStep (fun _ => some ()) (fun s k _ => cb s k)) qp.qbvh.leaves (s, []) := by
  unfold QueryPipeline.colliders_with_aabb_intersecting_aabb QBVH.traverse_depth_first
  rw [aabbLeafCb_eq]

/-! An ineligible handle contributes to no operation. -/

lemma never_appears_of_none (qp : QueryPipeline) (colliders : ColliderSet)
    (query_groups : InteractionGroups) (filter : Option (Nat → Bool)) (h : Nat)
    (hne : eligiblePart colliders query_groups filter h = none) :
    NeverAppears qp colliders query_groups filter h := by
  refine ⟨?_, ?_, ?_, ?_, ?_, ?_, ?_, ?_, ?_, ?_⟩
  · intro ray max_toi solid t hc
    rw [cast_ray_eq_bf] at hc
    rcases bf_op_some qp.qbvh
      (castRayToi colliders query_groups filter ray max_toi solid) id id h t hc with
      ⟨x, hx, _⟩
    unfold castRayToi at hx
    rw [hne] at hx
    exact Option.noConfusion hx
  · intro ray max_toi solid hit hc
    rw [cast_ray_normal_eq_bf] at hc
    rcases bf_op_some qp.qbvh
      (rayHit colliders query_groups filter ray max_toi solid) RayIntersection.toi id
      h hit hc with ⟨x, hx, _⟩
    unfold rayHit at hx
    rw [hne] at hx
    exact Option.noConfusion hx
  · intro shape_pos shape hc
    rw [intersection_with_shape_eq_bf] at hc
    rcases bf_oph_some qp.qbvh
      (shapeHit qp.query_dispatcher colliders query_groups filter shape_pos.inverse
        shape) (fun _ => 0) h hc with ⟨x, hx, _⟩
    unfold shapeHit at hx
    rw [hne] at hx
    exact Option.noConfusion hx
  · intro point solid proj hc
    rw [project_point_eq_bf] at hc
    rcases bf_op_some qp.qbvh
      (projectHit colliders query_groups filter point solid) Prod.fst Prod.snd h proj
      hc with ⟨x, hx, _⟩
    unfold projectHit at hx
    rw [hne] at hx
    exact Option.noConfusion hx
  · intro point proj fid hc
    rw [project_point_feature_eq_bf] at hc
    rcases bf_op_some qp.qbvh
      (projectFeatureHit colliders query_groups filter point)
      (fun pf => |point - pf.1.point|) (fun pf => (pf.1, pf.2)) h (proj, fid) hc with
      ⟨x, hx, _⟩
    unfold projectFeatureHit at hx
    rw [hne] at hx
    exact Option.noConfusion hx
  · intro shape_pos shape_vel shape max_toi t hc
    rw [cast_shape_eq_bf] at hc
    rcases bf_op_some qp.qbvh
      (castShapeHit qp.query_dispatcher colliders query_groups filter shape_pos
        shape_vel shape max_toi) TOI.toi id h t hc with ⟨x, hx, _⟩
    unfold castShapeHit at hx
    rw [hne] at hx
    exact Option.noConfusion hx
  · intro shape_motion shape start_time end_time stp t hc
    rw [nonlinear_cast_shape_eq_bf] at hc
    rcases bf_op_some qp.qbvh
      (nonlinearHit qp.query_dispatcher colliders query_groups filter shape_motion
        shape start_time end_time stp) TOI.toi id h t hc with ⟨x, hx, _⟩
    unfold nonlinearHit at hx
    rw [hne] at hx
    exact Option.noConfusion hx
  · intro σ ray max_toi solid cb s hm
    rw [intersections_with_ray_eq] at hm
    rcases dfRun_mem_trace _ _ _ _ _ _ _ hm with hm | hsome
    · simp at hm
    · unfold rayHit at hsome
      rw [hne] at hsome
      simp at hsome
  · intro σ point cb s hm
    rw [intersections_with_point_eq] at hm
    rcases dfRun_mem_trace _ _ _ _ _ _ _ hm with hm | hsome
    · simp at hm
    · unfold pointHit at hsome
      rw [hne] at hsome
      simp at hsome
  · intro σ shape_pos shape cb s hm
    rw [intersections_with_shape_eq] at hm
    rcases dfRun_mem_trace _ _ _ _ _ _ _ hm with hm | hsome
    · simp at hm
    · unfold shapeHit at hsome
      rw [hne] at hsome
      simp at hsome

/-- C3 (counterexample): the region query
`colliders_with_aabb_intersecting_aabb` takes no group filter and no
predicate, and it invokes its callback on a collider whose interaction
groups (`gNone`) fail every group test — here concretely the test against
`gAll` — refuting "every public query operation accepts an
interaction-group filter … a collider whose group test fails … never
appears in any callback invocation". -/
theorem region_query_ignores_groups_ce :
    InteractionGroups.test gNone gAll = false ∧
      ColliderSet.get csX 3 = some coX ∧
      (pX.colliders_with_aabb_intersecting_aabb boxA
          (fun (s : Unit) _ => (s, true)) ()).2 = [3] :=
  ⟨rfl, rfl, rfl⟩

/-- C3 (amended): every query operation other than the region query accepts
the interaction-group filter and the optional predicate, and a collider
whose group test fails or whose predicate returns false never appears in any
of their results or callback invocations; the region query
`colliders_with_aabb_intersecting_aabb` performs pure bound-overlap
filtering with no group test and no predicate. -/
theorem filtered_ops_exclude_ineligible :
    ∀ (qp : QueryPipeline) (colliders : ColliderSet)
      (query_groups : InteractionGroups) (filter : Option (Nat → Bool)) (h : Nat)
      (co : Collider),
      ColliderSet.get colliders h = some co →
      (co.collision_groups.test query_groups &&
        (filter.map fun f => f h).getD true) = false →
      NeverAppears qp colliders query_groups filter h := by
  intro qp colliders query_groups filter h co hget hfail
  apply never_appears_of_none
  unfold eligiblePart
  simp [hget, hfail]

/-- C3 (witness): concrete scene — handle 3's collider fails the group test
against `gAll`, and indeed it is neither the ray-cast winner nor ever passed
to the point-intersections callback. -/
theorem filtered_ops_exclude_ineligible_witness :
    (QueryPipeline.cast_ray pX csX rayW 100 true gAll none ≠ some (3, 3)) ∧
      3 ∉ (pX.intersections_with_point csX 0 gAll none
        (fun (s : Unit) _ => (s, true)) ()).2 := by
  have N := filtered_ops_exclude_ineligible pX csX gAll none 3 coX rfl rfl
  exact ⟨N.1 rayW 100 true 3, N.2.2.2.2.2.2.2.2.1 Unit 0 _ ()⟩

/-- C5 (counterexample): the region query passes a handle that is present in
the index but absent from the collider store straight to its callback — it
consults no store at all — refuting "for every query operation, a handle …
absent from the collider accessor store … is never passed to the
callback". -/
theorem region_query_passes_stale_handle_ce :
    ColliderSet.get csW 9 = none ∧
      (pStale.colliders_with_aabb_intersecting_aabb boxA
          (fun (s : Unit) _ => (s, true)) ()).2 = [9] :=
  ⟨rfl, rfl⟩

/-- C5 (amended): in every query operation that consults the collider store
(all of them except `colliders_with_aabb_intersecting_aabb`), a handle
present in the index but absent from the store is silently skipped — never a
result, never a callback argument — and the traversal continues over the
remaining candidates unchanged (removing the stale leaf from the index does
not change any all-matches run). -/
theorem store_absent_skipped :
    ∀ (qp : QueryPipeline) (colliders : ColliderSet)
      (query_groups : InteractionGroups) (filter : Option (Nat → Bool)) (h : Nat),
      ColliderSet.get colliders h = none →
      NeverAppears qp colliders query_groups filter h ∧
      (∀ (σ : Type) (d : QueryDispatcher) (l₁ l₂ : List (Nat × AABB)) (b : AABB)
        (mk : List Nat) (tb : Bool) (df : ℤ) (ray : Ray) (max_toi : ℤ) (solid : Bool)
        (cb : σ → Nat → RayIntersection → σ × Bool) (s : σ),
        QueryPipeline.intersections_with_ray ⟨d, ⟨l₁ ++ (h, b) :: l₂, mk⟩, tb, df⟩
            colliders ray max_toi solid query_groups filter cb s =
          QueryPipeline.intersections_with_ray ⟨d, ⟨l₁ ++ l₂, mk⟩, tb, df⟩
            colliders ray max_toi solid query_groups filter cb s) ∧
      (∀ (σ : Type) (d : QueryDispatcher) (l₁ l₂ : List (Nat × AABB)) (b : AABB)
        (mk : List Nat) (tb : Bool) (df : ℤ) (point : ℤ)
        (cb : σ → Nat → σ × Bool) (s : σ),
        QueryPipeline.intersections_with_point ⟨d, ⟨l₁ ++ (h, b) :: l₂, mk⟩, tb, df⟩
            colliders point query_groups filter cb s =
          QueryPipeline.intersections_with_point ⟨d, ⟨l₁ ++ l₂, mk⟩, tb, df⟩
            colliders point query_groups filter cb s) ∧
      (∀ (σ : Type) (d : QueryDispatcher) (l₁ l₂ : List (Nat × AABB)) (b : AABB)
        (mk : List Nat) (tb : Bool) (df : ℤ) (shape_pos : Isometry) (shape : Shape)
        (cb : σ → Nat → σ × Bool) (s : σ),
        QueryPipeline.intersections_with_shape ⟨d, ⟨l₁ ++ (h, b) :: l₂, mk⟩, tb, df⟩
            colliders shape_pos shape query_groups filter cb s =
          QueryPipeline.intersections_with_shape ⟨d, ⟨l₁ ++ l₂, mk⟩, tb, df⟩
            colliders shape_pos shape query_groups filter cb s) := by
  intro qp colliders query_groups filter h hget
  have hne : eligiblePart colliders query_groups filter h = none := by
    unfold eligiblePart
    rw [hget]
  refine ⟨never_appears_of_none qp colliders query_groups filter h hne, ?_, ?_, ?_⟩
  · intro σ d l₁ l₂ b mk tb df ray max_toi solid cb s
    rw [intersections_with_ray_eq, intersections_with_ray_eq]
    exact dfRun_skip _ _ _ h b (by unfold rayHit; rw [hne]; rfl) l₁ l₂ (s, [])
  · intro σ d l₁ l₂ b mk tb df point cb s
    rw [intersections_with_point_eq, intersections_with_point_eq]
    exact dfRun_skip _ _ _ h b (by unfold pointHit; rw [hne]; rfl) l₁ l₂ (s, [])
  · intro σ d l₁ l₂ b mk tb df shape_pos shape cb s
    rw [intersections_with_shape_eq, intersections_with_shape_eq]
    exact dfRun_skip _ _ _ h b (by unfold shapeHit; rw [hne]; rfl) l₁ l₂ (s, [])

/-- C5 (witness): handle 9 is indexed by `pStale` but absent from `csW`; it
is not the ray-cast result and is never handed to the ray-intersections
callback. -/
theorem store_absent_skipped_witness :
    (QueryPipeline.cast_ray pStale csW rayW 100 true gAll none ≠ some (9, 5)) ∧
      9 ∉ (pStale.intersections_with_ray csW rayW 100 true gAll none
        (fun (s : Unit) _ _ => (s, true)) ()).2 := by
  have N := (store_absent_skipped pStale csW gAll none 9 rfl).1
  exact ⟨N.1 rayW 100 true 5, N.2.2.2.2.2.2.2.1 Unit rayW 100 true _ ()⟩

/-- C7: for all four all-matches operations, a callback that always returns
`false` is invoked exactly once whenever the scene has at least one eligible
matching collider whose leaf bound passes the visitor's bound test: the
first hit ends the traversal, so the invocation list has length one — never
zero, never more. -/
theorem early_exit_exactly_once :
    ∀ (σ : Type) (qp : QueryPipeline) (colliders : ColliderSet)
      (query_groups : InteractionGroups) (filter : Option (Nat → Bool)),
      (∀ (ray : Ray) (max_toi : ℤ) (solid : Bool)
        (cb : σ → Nat → RayIntersection → σ × Bool) (s : σ),
        (∀ st h x, (cb st h x).2 = false) →
        (∃ p ∈ qp.qbvh.leaves, rayAabbOverlap ray max_toi p.2 = true ∧
          (rayHit colliders query_groups filter ray max_toi solid p.1).isSome) →
        (qp.intersections_with_ray colliders ray max_toi solid query_groups filter
          cb s).2.length = 1) ∧
      (∀ (point : ℤ) (cb : σ → Nat → σ × Bool) (s : σ),
        (∀ st h, (cb st h).2 = false) →
        (∃ p ∈ qp.qbvh.leaves, pointAabbOverlap point p.2 = true ∧
          (pointHit colliders query_groups filter point p.1).isSome) →
        (qp.intersections_with_point colliders point query_groups filter
          cb s).2.length = 1) ∧
      (∀ (shape_pos : Isometry) (shape : Shape) (cb : σ → Nat → σ × Bool) (s : σ),
        (∀ st h, (cb st h).2 = false) →
        (∃ p ∈ qp.qbvh.leaves, (shape.compute_aabb shape_pos).intersects p.2 = true ∧
          (shapeHit qp.query_dispatcher colliders query_groups filter
            shape_pos.inverse shape p.1).isSome) →
        (qp.intersections_with_shape colliders shape_pos shape query_groups filter
          cb s).2.length = 1) ∧
      (∀ (aabb : AABB) (cb : σ → Nat → σ × Bool) (s : σ),
        (∀ st h, (cb st h).2 = false) →
        (∃ p ∈ qp.qbvh.leaves, aabb.intersects p.2 = true) →
        (qp.colliders_with_aabb_intersecting_aabb aabb cb s).2.length = 1) := by
  intro σ qp colliders query_groups filter
  refine ⟨?_, ?_, ?_, ?_⟩
  · intro ray max_toi solid cb s hcb hex
    rw [intersections_with_ray_eq]
    rcases dfRun_false_once (rayAabbOverlap ray max_toi)
      (rayHit colliders query_groups filter ray max_toi solid) cb hcb
      qp.qbvh.leaves s [] hex with ⟨h0, htr⟩
    rw [htr]
    rfl
  · intro point cb s hcb hex
    rw [intersections_with_point_eq]
    rcases dfRun_false_once (pointAabbOverlap point)
      (pointHit colliders query_groups filter point) (fun st k _ => cb st k)
      (fun st k _ => hcb st k) qp.qbvh.leaves s [] hex with ⟨h0, htr⟩
    rw [htr]
    rfl
  · intro shape_pos shape cb s hcb hex
    rw [intersections_with_shape_eq]
    rcases dfRun_false_once (fun b => (shape.compute_aabb shape_pos).intersects b)
      (shapeHit qp.query_dispatcher colliders query_groups filter shape_pos.inverse
        shape) (fun st k _ => cb st k) (fun st k _ => hcb st k)
      qp.qbvh.leaves s [] hex with ⟨h0, htr⟩
    rw [htr]
    rfl
  · intro aabb cb s hcb hex
    rw [colliders_with_aabb_eq]
    rcases hex with ⟨p, hp, hbv⟩
    rcases dfRun_false_once (fun b => aabb.intersects b) (fun _ => some ())
      (fun st k _ => cb st k) (fun st k _ => hcb st k)
      qp.qbvh.leaves s [] ⟨p, hp, hbv, rfl⟩ with ⟨h0, htr⟩
    rw [htr]
    rfl

/-- C7 (witness): on the two-collider scene, an always-`false` callback runs
exactly once for each of the four all-matches operations. -/
theorem early_exit_exactly_once_witness :
    (pW.intersections_with_ray csW rayW 100 true gAll none
        (fun (s : Unit) _ _ => (s, false)) ()).2.length = 1 ∧
      (pW.intersections_with_point csW 0 gAll none
        (fun (s : Unit) _ => (s, false)) ()).2.length = 1 ∧
      (pW.intersections_with_shape csW ⟨0⟩ shQ gAll none
        (fun (s : Unit) _ => (s, false)) ()).2.length = 1 ∧
      (pW.colliders_with_aabb_intersecting_aabb boxA
        (fun (s : Unit) _ => (s, false)) ()).2.length = 1 := by
  have H := early_exit_exactly_once Unit pW csW gAll none
  refine ⟨H.1 rayW 100 true _ () (fun _ _ _ => rfl)
      ⟨(1, boxA), List.mem_cons_self _ _, by decide, rfl⟩,
    H.2.1 0 _ () (fun _ _ => rfl)
      ⟨(1, boxA), List.mem_cons_self _ _, by decide, rfl⟩,
    H.2.2.1 ⟨0⟩ shQ _ () (fun _ _ => rfl)
      ⟨(1, boxA), List.mem_cons_self _ _, by decide, rfl⟩,
    H.2.2.2 boxA _ () (fun _ _ => rfl)
      ⟨(1, boxA), List.mem_cons_self _ _, by decide⟩⟩

lemma projectHit_fst (colliders : ColliderSet) (query_groups : InteractionGroups)
    (filter : Option (Nat → Bool)) (point : ℤ) (solid : Bool) (h : Nat)
    (x : ℤ × PointProjection)
    (hx : projectHit colliders query_groups filter point solid h = some x) :
    x.1 = |point - x.2.point| := by
  unfold projectHit at hx
  cases he : eligiblePart colliders query_groups filter h with
  | none =>
    rw [he] at hx
    exact Option.noConfusion hx
  | some co =>
    rw [he] at hx
    simp only [Option.map_some'] at hx
    have := (Option.some.inj hx).symm
    subst this
    rfl

/-- C1: the four closest-result operations return the brute-force optimum
over the indexed handles passing the group test and the predicate: a
returned ray cast is an eligible hit of minimal time of impact; a returned
shape intersection is an eligible confirmed intersection (and `none` means
no eligible collider intersects); a returned point projection has minimal
distance among all eligible projections; a returned shape cast is an
eligible impact of minimal time of impact.  In each case `none` means the
brute-force scan over every indexed handle finds no candidate. -/
theorem closest_result_optimality :
    ∀ (qp : QueryPipeline) (colliders : ColliderSet)
      (query_groups : InteractionGroups) (filter : Option (Nat → Bool)),
      (∀ (ray : Ray) (max_toi : ℤ) (solid : Bool) (h : Nat) (t : ℤ),
        qp.cast_ray colliders ray max_toi solid query_groups filter = some (h, t) →
        castRayToi colliders query_groups filter ray max_toi solid h = some t ∧
          (∃ p ∈ qp.qbvh.leaves, p.1 = h) ∧
          ∀ p ∈ qp.qbvh.leaves, ∀ t',
            castRayToi colliders query_groups filter ray max_toi solid p.1 = some t' →
            t ≤ t') ∧
      (∀ (ray : Ray) (max_toi : ℤ) (solid : Bool),
        qp.cast_ray colliders ray max_toi solid query_groups filter = none →
        ∀ p ∈ qp.qbvh.leaves,
          castRayToi colliders query_groups filter ray max_toi solid p.1 = none) ∧
      (∀ (shape_pos : Isometry) (shape : Shape) (h : Nat),
        qp.intersection_with_shape colliders shape_pos shape query_groups filter =
          some h →
        shapeHit qp.query_dispatcher colliders query_groups filter shape_pos.inverse
            shape h = some () ∧
          ∃ p ∈ qp.qbvh.leaves, p.1 = h) ∧
      (∀ (shape_pos : Isometry) (shape : Shape),
        qp.intersection_with_shape colliders shape_pos shape query_groups filter =
          none →
        ∀ p ∈ qp.qbvh.leaves,
          shapeHit qp.query_dispatcher colliders query_groups filter shape_pos.inverse
            shape p.1 = none) ∧
      (∀ (point : ℤ) (solid : Bool) (h : Nat) (proj : PointProjection),
        qp.project_point colliders point solid query_groups filter = some (h, proj) →
        projectHit colliders query_groups filter point solid h =
            some (|point - proj.point|, proj) ∧
          (∃ p ∈ qp.qbvh.leaves, p.1 = h) ∧
          ∀ p ∈ qp.qbvh.leaves, ∀ y,
            projectHit colliders query_groups filter point solid p.1 = some y →
            |point - proj.point| ≤ y.1) ∧
      (∀ (point : ℤ) (solid : Bool),
        qp.project_point colliders point solid query_groups filter = none →
        ∀ p ∈ qp.qbvh.leaves,
          projectHit colliders query_groups filter point solid p.1 = none) ∧
      (∀ (shape_pos : Isometry) (shape_vel : ℤ) (shape : Shape) (max_toi : ℤ)
        (h : Nat) (t : TOI),
        qp.cast_shape colliders shape_pos shape_vel shape max_toi query_groups
          filter = some (h, t) →
        castShapeHit qp.query_dispatcher colliders query_groups filter shape_pos
            shape_vel shape max_toi h = some t ∧
          (∃ p ∈ qp.qbvh.leaves, p.1 = h) ∧
          ∀ p ∈ qp.qbvh.leaves, ∀ t',
            castShapeHit qp.query_dispatcher colliders query_groups filter shape_pos
              shape_vel shape max_toi p.1 = some t' → t.toi ≤ t'.toi) ∧
      (∀ (shape_pos : Isometry) (shape_vel : ℤ) (shape : Shape) (max_toi : ℤ),
        qp.cast_shape colliders shape_pos shape_vel shape max_toi query_groups
          filter = none →
        ∀ p ∈ qp.qbvh.leaves,
          castShapeHit qp.query_dispatcher colliders query_groups filter shape_pos
            shape_vel shape max_toi p.1 = none) := by
  intro qp colliders query_groups filter
  refine ⟨?_, ?_, ?_, ?_, ?_, ?_, ?_, ?_⟩
  · intro ray max_toi solid h t hres
    rw [cast_ray_eq_bf] at hres
    rcases bf_op_some qp.qbvh
      (castRayToi colliders query_groups filter ray max_toi solid) id id h t hres with
      ⟨x, hx, hpay, hmem, hmin⟩
    obtain rfl : x = t := hpay
    exact ⟨hx, hmem, fun p hp t' ht' => hmin p hp t' ht'⟩
  · intro ray max_toi solid hres
    rw [cast_ray_eq_bf] at hres
    exact bf_op_none qp.qbvh
      (castRayToi colliders query_groups filter ray max_toi solid) id id hres
  · intro shape_pos shape h hres
    rw [intersection_with_shape_eq_bf] at hres
    rcases bf_oph_some qp.qbvh
      (shapeHit qp.query_dispatcher colliders query_groups filter shape_pos.inverse
        shape) (fun _ => 0) h hres with ⟨x, hx, hmem, _⟩
    exact ⟨hx, hmem⟩
  · intro shape_pos shape hres
    rw [intersection_with_shape_eq_bf] at hres
    exact bf_oph_none qp.qbvh
      (shapeHit qp.query_dispatcher colliders query_groups filter shape_pos.inverse
        shape) (fun _ => 0) hres
  · intro point solid h proj hres
    rw [project_point_eq_bf] at hres
    rcases bf_op_some qp.qbvh
      (projectHit colliders query_groups filter point solid) Prod.fst Prod.snd h proj
      hres with ⟨x, hx, hpay, hmem, hmin⟩
    have hfst := projectHit_fst colliders query_groups filter point solid h x hx
    obtain ⟨c, pr⟩ := x
    obtain rfl : pr = proj := hpay
    obtain rfl : c = |point - pr.point| := hfst
    exact ⟨hx, hmem, fun p hp y hy => hmin p hp y hy⟩
  · intro point solid hres
    rw [project_point_eq_bf] at hres
    exact bf_op_none qp.qbvh
      (projectHit colliders query_groups filter point solid) Prod.fst Prod.snd hres
  · intro shape_pos shape_vel shape max_toi h t hres
    rw [cast_shape_eq_bf] at hres
    rcases bf_op_some qp.qbvh
      (castShapeHit qp.query_dispatcher colliders query_groups filter shape_pos
        shape_vel shape max_toi) TOI.toi id h t hres with ⟨x, hx, hpay, hmem, hmin⟩
    obtain rfl : x = t := hpay
    exact ⟨hx, hmem, fun p hp t' ht' => hmin p hp t' ht'⟩
  · intro shape_pos shape_vel shape max_toi hres
    rw [cast_shape_eq_bf] at hres
    exact bf_op_none qp.qbvh
      (castShapeHit qp.query_dispatcher colliders query_groups filter shape_pos
        shape_vel shape max_toi) TOI.toi id hres

/-- C1 (witness): on the two-collider scene the ray cast returns handle 1 at
time 3; the theorem instantiated there certifies the brute-force value at
the winner and that 3 is no larger than the other candidate's time 5. -/
theorem closest_result_optimality_witness :
    castRayToi csW gAll none rayW 100 true 1 = some 3 ∧ (3 : ℤ) ≤ 5 := by
  have H := closest_result_optimality pW csW gAll none
  have h1 := H.1 rayW 100 true 1 3 rfl
  refine ⟨h1.1, ?_⟩
  exact h1.2.2 (2, boxB) (List.mem_cons_of_mem _ (List.mem_cons_self _ _)) 5 rfl

lemma update_with_mode_preserves (qp : QueryPipeline) (islands : IslandManager)
    (bodies : RigidBodySet) (colliders : ColliderSet) (mode : QueryPipelineMode) :
    (qp.update_with_mode islands bodies colliders mode).query_dispatcher =
        qp.query_dispatcher ∧
      (qp.update_with_mode islands bodies colliders mode).tree_built =
        qp.tree_built ∧
      (qp.update_with_mode islands bodies colliders mode).dilation_factor =
        qp.dilation_factor := by
  cases hq : qp.tree_built <;> simp [QueryPipeline.update_with_mode, hq]

lemma applyUpdates_preserves (qp : QueryPipeline) (calls : List UpdateCall) :
    (applyUpdates qp calls).query_dispatcher = qp.query_dispatcher ∧
      (applyUpdates qp calls).tree_built = qp.tree_built ∧
      (applyUpdates qp calls).dilation_factor = qp.dilation_factor := by
  induction calls generalizing qp with
  | nil => exact ⟨rfl, rfl, rfl⟩
  | cons c cs ih =>
    have h1 := update_with_mode_preserves qp c.islands c.bodies c.colliders c.mode
    have h2 := ih (qp.update_with_mode c.islands c.bodies c.colliders c.mode)
    exact ⟨h2.1.trans h1.1, h2.2.1.trans h1.2.1, h2.2.2.trans h1.2.2⟩

lemma update_of_not_built (qp : QueryPipeline) (islands : IslandManager)
    (bodies : RigidBodySet) (colliders : ColliderSet) (mode : QueryPipelineMode)
    (hp : qp.tree_built = false) :
    qp.update_with_mode islands bodies colliders mode =
      ⟨qp.query_dispatcher,
        ⟨(DataGenerator.for_each bodies colliders mode).map fun p =>
          (p.1, p.2.dilate qp.dilation_factor), []⟩,
        qp.tree_built, qp.dilation_factor⟩ := by
  rcases qp with ⟨d, t, tb, df⟩
  simp only at hp
  subst hp
  simp [QueryPipeline.update_with_mode, QBVH.clear_and_rebuild]

/-- C2 (counterexample): the first call to `update_with_mode` does not
transition the pipeline to Built (`tree_built` stays `false`, since the
source's `self.tree_built = true` is commented out), and the second call
takes the full-rebuild branch again: rebuilding against a store holding only
handle 3 replaces the previous topology `[1, 2]` with `[3]` instead of
refreshing it. -/
theorem update_stays_unbuilt_ce :
    ((QueryPipeline.with_query_dispatcher dW).update_with_mode [] bodiesW csW
        .CurrentPosition).tree_built = false ∧
      ((((QueryPipeline.with_query_dispatcher dW).update_with_mode [] bodiesW csW
          .CurrentPosition).update_with_mode [] bodiesW csX
          .CurrentPosition).qbvh.leaves.map Prod.fst) = [3] :=
  ⟨rfl, rfl⟩

/-- C2 (amended): the update protocol has a single reachable state: the
built flag is never set, so after any history of updates the pipeline still
reports `tree_built = false` and every call to `update_with_mode` — the
first and all subsequent ones alike — takes the full-rebuild branch,
discarding the tree and rebuilding it from the store's generator; the
mark-and-refresh branch is unreachable. -/
theorem update_always_rebuilds :
    ∀ (d : QueryDispatcher) (calls : List UpdateCall) (islands : IslandManager)
      (bodies : RigidBodySet) (colliders : ColliderSet) (mode : QueryPipelineMode),
      (applyUpdates (QueryPipeline.with_query_dispatcher d) calls).tree_built =
        false ∧
      (applyUpdates (QueryPipeline.with_query_dispatcher d) calls).update_with_mode
          islands bodies colliders mode =
        ⟨(applyUpdates (QueryPipeline.with_query_dispatcher d) calls).query_dispatcher,
          ⟨(DataGenerator.for_each bodies colliders mode).map fun p =>
            (p.1, p.2.dilate (applyUpdates (QueryPipeline.with_query_dispatcher d)
              calls).dilation_factor), []⟩,
          false,
          (applyUpdates (QueryPipeline.with_query_dispatcher d)
            calls).dilation_factor⟩ := by
  intro d calls islands bodies colliders mode
  have htb : (applyUpdates (QueryPipeline.with_query_dispatcher d) calls).tree_built =
      false :=
    (applyUpdates_preserves (QueryPipeline.with_query_dispatcher d) calls).2.1
  refine ⟨htb, ?_⟩
  rw [update_of_not_built _ _ _ _ _ htb, htb]

/-- C8: the pipeline state after an update is fully determined by the
update's inputs and the constructor-fixed dispatcher and dilation factor: a
pipeline with an arbitrary history of prior updates and a freshly
constructed one reach identical states from the same
bodies/colliders/islands/mode, and hence answer every query identically
(shown here for `cast_ray`; the states themselves are equal). -/
theorem state_reconstructible :
    ∀ (d : QueryDispatcher) (calls : List UpdateCall) (islands : IslandManager)
      (bodies : RigidBodySet) (colliders : ColliderSet) (mode : QueryPipelineMode),
      (applyUpdates (QueryPipeline.with_query_dispatcher d) calls).update_with_mode
          islands bodies colliders mode =
        (QueryPipeline.with_query_dispatcher d).update_with_mode islands bodies
          colliders mode ∧
      ∀ (colliders2 : ColliderSet) (ray : Ray) (max_toi : ℤ) (solid : Bool)
        (query_groups : InteractionGroups) (filter : Option (Nat → Bool)),
        ((applyUpdates (QueryPipeline.with_query_dispatcher d) calls).update_with_mode
            islands bodies colliders mode).cast_ray colliders2 ray max_toi solid
            query_groups filter =
          ((QueryPipeline.with_query_dispatcher d).update_with_mode islands bodies
            colliders mode).cast_ray colliders2 ray max_toi solid query_groups
            filter := by
  intro d calls islands bodies colliders mode
  have hA := applyUpdates_preserves (QueryPipeline.with_query_dispatcher d) calls
  have h1 : (applyUpdates (QueryPipeline.with_query_dispatcher d)
      calls).update_with_mode islands bodies colliders mode =
      (QueryPipeline.with_query_dispatcher d).update_with_mode islands bodies
        colliders mode := by
    rw [update_of_not_built _ _ _ _ _ hA.2.1,
      update_of_not_built _ _ _ _ _ (rfl : (QueryPipeline.with_query_dispatcher
        d).tree_built = false),
      hA.1, hA.2.1, hA.2.2]
  exact ⟨h1, fun colliders2 ray max_toi solid query_groups filter => by rw [h1]⟩

/-- C4: during `update_with_mode`, a collider without a parent gets the
plain AABB of its current position under all three modes, in both the
rebuild generator and the refresh closure; only a parented collider gets the
swept AABB toward the parent's next (resp. predicted) pose composed with its
pose with respect to the parent. -/
theorem unparented_uses_current_aabb :
    ∀ (bodies : RigidBodySet) (mode : QueryPipelineMode) (h : Nat)
      (g : InteractionGroups) (pos : Isometry) (sh : Shape) (rest : ColliderSet),
      DataGenerator.for_each bodies ((h, ⟨g, pos, sh, none⟩) :: rest) mode =
        (h, sh.compute_aabb pos) :: DataGenerator.for_each bodies rest mode ∧
      refreshAabb bodies ((h, ⟨g, pos, sh, none⟩) :: rest) mode h =
        sh.compute_aabb pos ∧
      (∀ (par : ColliderParent),
        DataGenerator.for_each bodies ((h, ⟨g, pos, sh, some par⟩) :: rest)
            .SweepTestWithNextPosition =
          (h, sh.compute_swept_aabb pos
            ((bodies par.handle).pos.next_position * par.pos_wrt_parent)) ::
            DataGenerator.for_each bodies rest .SweepTestWithNextPosition) ∧
      (∀ (par : ColliderParent) (dt : ℤ),
        DataGenerator.for_each bodies ((h, ⟨g, pos, sh, some par⟩) :: rest)
            (.SweepTestWithPredictedPosition dt) =
          (h, sh.compute_swept_aabb pos
            ((bodies par.handle).predict_position dt * par.pos_wrt_parent)) ::
            DataGenerator.for_each bodies rest
              (.SweepTestWithPredictedPosition dt)) := by
  intro bodies mode h g pos sh rest
  refine ⟨?_, ?_, fun par => ?_, fun par dt => ?_⟩
  · cases mode <;> simp [DataGenerator.for_each]
  · cases mode <;> simp [refreshAabb, ColliderSet.get, List.find?]
  · simp [DataGenerator.for_each]
  · simp [DataGenerator.for_each]

/-- C6: in `intersections_with_shape`, a candidate on which the dispatcher's
intersection test errors is treated as non-matching: its handle is never
passed to the callback, and the whole traversal (final state and invocation
list) is exactly what it would have been had that leaf not been indexed at
all — the remaining candidates are still tested. -/
theorem dispatcher_error_nonmatching :
    ∀ (σ : Type) (d : QueryDispatcher) (l₁ l₂ : List (Nat × AABB)) (h : Nat)
      (b : AABB) (mk : List Nat) (tb : Bool) (df : ℤ) (colliders : ColliderSet)
      (shape_pos : Isometry) (shape : Shape) (query_groups : InteractionGroups)
      (filter : Option (Nat → Bool)) (cb : σ → Nat → σ × Bool) (s : σ)
      (co : Collider),
      ColliderSet.get colliders h = some co →
      d.intersection_test (shape_pos.inverse * co.pos) shape co.shape =
        Except.error () →
      (QueryPipeline.intersections_with_shape ⟨d, ⟨l₁ ++ (h, b) :: l₂, mk⟩, tb, df⟩
          colliders shape_pos shape query_groups filter cb s =
        QueryPipeline.intersections_with_shape ⟨d, ⟨l₁ ++ l₂, mk⟩, tb, df⟩
          colliders shape_pos shape query_groups filter cb s) ∧
      h ∉ (QueryPipeline.intersections_with_shape ⟨d, ⟨l₁ ++ (h, b) :: l₂, mk⟩, tb, df⟩
        colliders shape_pos shape query_groups filter cb s).2 := by
  intro σ d l₁ l₂ h b mk tb df colliders shape_pos shape query_groups filter cb s co
    hget herr
  have hnone : shapeHit d colliders query_groups filter shape_pos.inverse shape h =
      none := by
    unfold shapeHit eligiblePart
    rw [hget]
    cases hc : (co.collision_groups.test query_groups &&
        (filter.map fun f => f h).getD true) <;> simp [hc, herr]
  constructor
  · rw [intersections_with_shape_eq, intersections_with_shape_eq]
    exact dfRun_skip _ _ _ h b hnone l₁ l₂ (s, [])
  · intro hm
    rw [intersections_with_shape_eq] at hm
    rcases dfRun_mem_trace _ _ _ _ _ _ _ hm with hm | hsome
    · simp at hm
    · rw [hnone] at hsome
      simp at hsome

/-- C6 (witness): with the dispatcher erroring exactly on collider 1's
relative pose, the shape-intersections run over the index containing leaf 1
equals the run over the index without it, and 1 never reaches the callback
while collider 2 still does. -/
theorem dispatcher_error_nonmatching_witness :
    (QueryPipeline.intersections_with_shape ⟨dW, ⟨[] ++ (1, boxA) :: [(2, boxB)], []⟩,
        false, 1⟩ csW ⟨-99⟩ shQ gAll none (fun (s : Unit) _ => (s, true)) () =
      QueryPipeline.intersections_with_shape ⟨dW, ⟨[] ++ [(2, boxB)], []⟩, false, 1⟩
        csW ⟨-99⟩ shQ gAll none (fun (s : Unit) _ => (s, true)) ()) ∧
      1 ∉ (QueryPipeline.intersections_with_shape ⟨dW, ⟨[] ++ (1, boxA) :: [(2, boxB)],
        []⟩, false, 1⟩ csW ⟨-99⟩ shQ gAll none
        (fun (s : Unit) _ => (s, true)) ()).2 :=
  dispatcher_error_nonmatching Unit dW [] [(2, boxB)] 1 boxA [] false 1 csW ⟨-99⟩
    shQ gAll none (fun s _ => (s, true)) () coA rfl rfl

/-- C9: `nonlinear_cast_shape` treats every collider as stationary: it
coincides, for every motion description, interval, and scene, with the
reference computation that gives each collider the identity rigid motion and
evaluates the dispatcher's nonlinear time of impact against the collider
fixed at its indexed pose. -/
theorem nonlinear_cast_treats_colliders_stationary :
    ∀ (qp : QueryPipeline) (colliders : ColliderSet)
      (shape_motion : NonlinearRigidMotion) (shape : Shape)
      (start_time end_time : ℤ) (stop_at_penetration : Bool)
      (query_groups : InteractionGroups) (filter : Option (Nat → Bool)),
      qp.nonlinear_cast_shape colliders shape_motion shape start_time end_time
          stop_at_penetration query_groups filter =
        nonlinearCastShapeStationary qp colliders shape_motion shape start_time
          end_time stop_at_penetration query_groups filter := by
  intro qp colliders shape_motion shape start_time end_time stop_at_penetration
    query_groups filter
  rw [nonlinear_cast_shape_eq_bf]
  rfl

lemma eligiblePart_get (colliders : ColliderSet) (query_groups : InteractionGroups)
    (filter : Option (Nat → Bool)) (h : Nat) (co : Collider)
    (he : eligiblePart colliders query_groups filter h = some co) :
    ColliderSet.get colliders h = some co := by
  unfold eligiblePart at he
  cases hg : colliders.get h with
  | none =>
    rw [hg] at he
    exact Option.noConfusion he
  | some co' =>
    rw [hg] at he
    cases hc : (co'.collision_groups.test query_groups &&
        (filter.map fun f => f h).getD true)
    · simp [hc] at he
    · simp [hc] at he
      rw [he]

lemma get_mem (colliders : ColliderSet) (h : Nat) (co : Collider)
    (hg : ColliderSet.get colliders h = some co) : ∃ p ∈ colliders, p.2 = co := by
  unfold ColliderSet.get at hg
  rcases Option.map_eq_some'.mp hg with ⟨p, hfind, hsnd⟩
  exact ⟨p, List.mem_of_find?_eq_some hfind, hsnd⟩

lemma shA_hollow : shA.HollowProj := fun _ _ => rfl

lemma shB_hollow : shB.HollowProj := fun _ _ => rfl

/-- C10: `project_point_and_get_feature` always projects hollow: it equals
the solid-parameterised projection at `solid = false` for every input, and —
whenever every stored shape satisfies the hollow-projection contract (a
hollow projection lands on the shape's boundary) — any returned projection
lies on the winning collider's boundary, in particular also when the query
point is strictly inside some eligible collider. -/
theorem project_point_feature_hollow :
    (∀ (qp : QueryPipeline) (colliders : ColliderSet) (point : ℤ)
      (query_groups : InteractionGroups) (filter : Option (Nat → Bool)),
      qp.project_point_and_get_feature colliders point query_groups filter =
        qp.project_point_and_get_feature_solid colliders point false query_groups
          filter) ∧
    (∀ (qp : QueryPipeline) (colliders : ColliderSet) (point : ℤ)
      (query_groups : InteractionGroups) (filter : Option (Nat → Bool)) (h : Nat)
      (proj : PointProjection) (fid : FeatureId),
      (∀ p ∈ colliders, Shape.HollowProj p.2.shape) →
      qp.project_point_and_get_feature colliders point query_groups filter =
        some (h, proj, fid) →
      ∃ co, ColliderSet.get colliders h = some co ∧
        co.shape.boundary co.pos proj.point = true) := by
  constructor
  · intro qp colliders point query_groups filter
    rfl
  · intro qp colliders point query_groups filter h proj fid hwf hres
    rw [project_point_feature_eq_bf] at hres
    rcases bf_op_some qp.qbvh (projectFeatureHit colliders query_groups filter point)
      (fun pf => |point - pf.1.point|) (fun pf => (pf.1, pf.2)) h (proj, fid) hres
      with ⟨x, hx, hpay, _, _⟩
    unfold projectFeatureHit at hx
    cases he : eligiblePart colliders query_groups filter h with
    | none =>
      rw [he] at hx
      exact Option.noConfusion hx
    | some co =>
      rw [he] at hx
      simp only [Option.map_some'] at hx
      have hxval : co.shape.project_point_with_feature co.pos point false = x :=
        Option.some.inj hx
      have hget := eligiblePart_get colliders query_groups filter h co he
      rcases get_mem colliders h co hget with ⟨p, hp, hpc⟩
      have hhol : co.shape.HollowProj := by
        rw [← hpc]
        exact hwf p hp
      have hb := hhol co.pos point
      rw [hxval] at hb
      have hproj : x.1 = proj := congrArg Prod.fst hpay
      rw [hproj] at hb
      exact ⟨co, hget, hb⟩

/-- C10 (witness): on the two-collider scene the hollow projection of the
interior point 0 wins at handle 1 with projection point 5, and the theorem
certifies that 5 lies on that collider's boundary. -/
theorem project_point_feature_hollow_witness :
    QueryPipeline.project_point_and_get_feature pW csW 0 gAll none =
        some (1, ⟨true, 5⟩, 2) ∧
      shA.boundary ⟨0⟩ 5 = true := by
  refine ⟨rfl, ?_⟩
  have hwf : ∀ p ∈ csW, Shape.HollowProj p.2.shape := by
    intro p hp
    rcases List.mem_cons.mp hp with hp | hp
    · rw [hp]
      exact shA_hollow
    · rcases List.mem_cons.mp hp with hp | hp
      · rw [hp]
        exact shB_hollow
      · simp at hp
  rcases project_point_feature_hollow.2 pW csW 0 gAll none 1 ⟨true, 5⟩ 2 hwf rfl with
    ⟨co, hget, hb⟩
  have hco : co = coA := by
    have : ColliderSet.get csW 1 = some coA := rfl
    exact (Option.some.inj (this.symm.trans hget)).symm
  rw [hco] at hb
  exact hb

end Rapier
